import Mathlib

/-!
# Verification of the weekly venue-scheduling optimizer

Shallow embedding of `genetic_algo_optimization.py`: the calendar constraint
compiler (`process_weekly_constraints`, `parse_date_string`), the fitness
evaluator (`calculate_fitness`), the population operators
(`initialize_population`, `crossover`, `mutate`, `selection`), the post-mortem
analyzer (`_check_slot_constraints_for_reason`, `_run_post_mortem_analysis`)
and the orchestrator (`optimize_weekly_schedule`).

Modelling conventions:
* Absolute datetimes are minutes on an integer timeline (`Int`).  A Python
  `date` is the floor-division day number `t.fdiv 1440`; `datetime.time()` is
  `t.emod 1440`; `datetime.combine(d, t)` is `d * 1440 + t`.  Day number 0 is
  1970-01-01, a Thursday, so Python's `date.weekday()` (Monday = 0) is
  `(d + 3).emod 7`.
* Python `dict`s are association lists with Python's assignment semantics
  (update in place if the key exists, else append).
* Randomness (`random.random`, `random.randint`, `random.choice`) is
  abstracted into oracle records supplying the drawn decision for each use
  site; `randint(a, b)` outcomes are normalised into range with `emod`.
* Python floats that only feed the soft score are modelled as exact `Rat`
  arithmetic; no claim depends on their rounding.
* I/O (config file read, database fetch) is abstracted as `Except`-valued
  parameters of the orchestrator.
-/

set_option autoImplicit false

/-- Day number of an absolute minute timestamp (Python `datetime.date()`). -/
def dayOf (t : Int) : Int := t.fdiv 1440

/-- Minute-of-day of an absolute minute timestamp (Python `datetime.time()`). -/
def todOf (t : Int) : Int := t.emod 1440

/-- Python `datetime.combine(d, t)` on the minute timeline. -/
def combineDT (d m : Int) : Int := d * 1440 + m

/-- Python `date.weekday()` for a day number (Monday = 0, Sunday = 6);
day 0 (1970-01-01) is a Thursday. -/
def weekdayOf (d : Int) : Int := (d + 3).emod 7

/-- Python `date.strftime("%A")` via the weekday number. -/
def dayNameOf (wd : Int) : String :=
  if wd = 0 then "Monday"
  else if wd = 1 then "Tuesday"
  else if wd = 2 then "Wednesday"
  else if wd = 3 then "Thursday"
  else if wd = 4 then "Friday"
  else if wd = 5 then "Saturday"
  else "Sunday"

/-- Is the first list a prefix of the second (decidable, kernel-friendly)? -/
def listIsPre {α : Type} [DecidableEq α] : List α → List α → Bool
  | [], _ => true
  | _ :: _, [] => false
  | a :: as, b :: bs => a = b && listIsPre as bs

/-- Does `sub` occur as a contiguous sublist of `l`? -/
def listHasSub {α : Type} [DecidableEq α] (sub l : List α) : Bool :=
  match l with
  | [] => sub.isEmpty
  | _ :: rest => listIsPre sub l || listHasSub sub rest

/-- Python `sub in s` substring test. -/
def strContains (s sub : String) : Bool := listHasSub sub.toList s.toList

/-- Python `s.startswith(p)`. -/
def strStarts (s p : String) : Bool := listIsPre p.toList s.toList

/-- Python `s.lower()` (ASCII is all the source compares). -/
def pyLower (s : String) : String := ⟨s.toList.map Char.toLower⟩

/-- Replace every non-overlapping occurrence of `pat` (left to right); the
fuel argument is structural (instantiated with the list length) so the
definition evaluates by kernel reduction. -/
def replaceSubAux {α : Type} [DecidableEq α] (pat rep : List α) :
    Nat → List α → List α
  | _, [] => []
  | 0, l => l
  | fuel + 1, c :: rest =>
    if pat ≠ [] ∧ listIsPre pat (c :: rest) then
      rep ++ replaceSubAux pat rep fuel (rest.drop (pat.length - 1))
    else
      c :: replaceSubAux pat rep fuel rest

/-- Replace every non-overlapping occurrence of `pat` (left to right). -/
def replaceSub {α : Type} [DecidableEq α] (pat rep : List α) (l : List α) : List α :=
  replaceSubAux pat rep l.length l

/-- Python `s.replace(pat, rep)`. -/
def strReplace (s pat rep : String) : String :=
  ⟨replaceSub pat.toList rep.toList s.toList⟩

/-- `range(a, b)` as a list of integers `a, a+1, …, b-1`. -/
def intRange (a b : Int) : List Int :=
  (List.range (b - a).toNat).map (fun (i : Nat) => a + (i : Int))

/-- Python dict assignment `d[k] = v`: replace in place or append. -/
def dictSet {α β : Type} [DecidableEq α] (d : List (α × β)) (k : α) (v : β) :
    List (α × β) :=
  match d with
  | [] => [(k, v)]
  | (k', v') :: rest => if k' = k then (k, v) :: rest else (k', v') :: dictSet rest k v

/-- Python dict lookup `d.get(k)` (first matching key). -/
def alookup {α β : Type} [DecidableEq α] (d : List (α × β)) (k : α) : Option β :=
  match d with
  | [] => none
  | (k', v) :: rest => if k' = k then some v else alookup rest k

/-- Keys of an association list (Python `d.keys()` / `k in d`). -/
def dictKeys {α β : Type} (d : List (α × β)) : List α := d.map Prod.fst

/-- Build a dict from a list of pairs (later writes win, Python dict comprehension). -/
def buildDict {α β : Type} [DecidableEq α] (l : List (α × β)) : List (α × β) :=
  l.foldl (fun d kv => dictSet d kv.1 kv.2) []

/-- Append `v` to the list stored under key `k`, creating the key if absent
(the `active_slots_by_venue` accumulation pattern). -/
def dictAppend {α β : Type} [DecidableEq α] (d : List (α × List β)) (k : α) (v : β) :
    List (α × List β) :=
  match d with
  | [] => [(k, [v])]
  | (k', vs) :: rest =>
    if k' = k then (k', vs ++ [v]) :: rest else (k', vs) :: dictAppend rest k v

/-- Insert into a list sorted by `le` (helper for Python `sorted`). -/
def insertSorted {α : Type} (le : α → α → Bool) (x : α) : List α → List α
  | [] => [x]
  | y :: ys => if le x y then x :: y :: ys else y :: insertSorted le x ys

/-- Python `sorted(l, key=…)` as insertion sort with a boolean order. -/
def sortByLe {α : Type} (le : α → α → Bool) (l : List α) : List α :=
  l.foldr (insertSorted le) []

/-- Fuel-indexed helper for `dedupKeepFirst` (fuel bounds the list length). -/
def dedupAux {α : Type} [DecidableEq α] : Nat → List α → List α
  | _, [] => []
  | 0, l => l
  | fuel + 1, x :: xs => x :: dedupAux fuel (xs.filter (fun y => y ≠ x))

/-- Keep the first occurrence of each element (used for Python `set` iteration
where only membership matters). -/
def dedupKeepFirst {α : Type} [DecidableEq α] (l : List α) : List α :=
  dedupAux l.length l

/-- Python `sorted(list(set(l)))` for integers. -/
def sortedDedupInt (l : List Int) : List Int :=
  sortByLe (fun a b => decide (a ≤ b)) (dedupKeepFirst l)

/-- `check_overlap(start1, end1, start2, end2)`: half-open interval overlap,
literally `start1 < end2 and end1 > start2`. -/
def check_overlap (start1 end1 start2 end2 : Int) : Bool :=
  decide (start1 < end2) && decide (end1 > start2)

theorem mem_insertSorted {α : Type} (le : α → α → Bool) (x y : α) (l : List α) :
    y ∈ insertSorted le x l ↔ y = x ∨ y ∈ l := by
  induction l with
  | nil => simp [insertSorted]
  | cons z zs ih =>
    simp only [insertSorted]
    by_cases h : le x z = true
    · rw [if_pos h]
      simp only [List.mem_cons]
    · rw [if_neg h]
      simp only [List.mem_cons, ih]
      tauto

theorem mem_sortByLe {α : Type} (le : α → α → Bool) (x : α) (l : List α) :
    x ∈ sortByLe le l ↔ x ∈ l := by
  induction l with
  | nil => simp [sortByLe]
  | cons z zs ih =>
    simp only [sortByLe, List.foldr_cons] at ih ⊢
    rw [mem_insertSorted, ih]
    simp only [List.mem_cons]

theorem mem_dedupAux {α : Type} [DecidableEq α] (x : α) :
    ∀ (fuel : Nat) (l : List α), l.length ≤ fuel → (x ∈ dedupAux fuel l ↔ x ∈ l) := by
  intro fuel
  induction fuel with
  | zero =>
    intro l h
    have : l = [] := List.length_eq_zero.mp (Nat.le_zero.mp h)
    subst this
    simp [dedupAux]
  | succ n ih =>
    intro l h
    cases l with
    | nil => simp [dedupAux]
    | cons y ys =>
      have hlen : (ys.filter (fun z => z ≠ y)).length ≤ n :=
        le_trans (List.length_filter_le _ _)
          (by simpa using Nat.lt_succ_iff.mp (Nat.lt_of_lt_of_le (Nat.lt_succ_self _) h))
      simp only [dedupAux, List.mem_cons, ih _ hlen, List.mem_filter]
      by_cases hx : x = y
      · subst hx; simp
      · simp [hx]

theorem mem_dedupKeepFirst {α : Type} [DecidableEq α] (x : α) (l : List α) :
    x ∈ dedupKeepFirst l ↔ x ∈ l :=
  mem_dedupAux x l.length l le_rfl

theorem mem_sortedDedupInt (x : Int) (l : List Int) :
    x ∈ sortedDedupInt l ↔ x ∈ l := by
  simp [sortedDedupInt, mem_sortByLe, mem_dedupKeepFirst]

theorem mem_intRange (d a b : Int) : d ∈ intRange a b ↔ a ≤ d ∧ d < b := by
  simp only [intRange, List.mem_map, List.mem_range]
  constructor
  · rintro ⟨i, hi, rfl⟩; omega
  · intro ⟨h1, h2⟩
    refine ⟨(d - a).toNat, by omega, by omega⟩

/-- C6: `check_overlap` decides exactly `s1 < e2 ∧ s2 < e1` (half-open interval
overlap); it is symmetric in the two intervals, and reflexive on every
non-degenerate interval (`start < end`). -/
theorem C6_check_overlap_spec :
    ∀ s1 e1 s2 e2 : Int,
      (check_overlap s1 e1 s2 e2 = true ↔ (s1 < e2 ∧ s2 < e1)) ∧
      (check_overlap s1 e1 s2 e2 = check_overlap s2 e2 s1 e1) ∧
      (s1 < e1 → check_overlap s1 e1 s1 e1 = true) := by
  intro s1 e1 s2 e2
  refine ⟨?_, ?_, ?_⟩
  · simp [check_overlap]
  · simp [check_overlap, Bool.and_comm]
  · intro h; simp [check_overlap]; omega

/-- Witness for C6: the reflexivity clause applied to the concrete
non-degenerate interval `[120, 210)`. -/
theorem C6_check_overlap_spec_witness : check_overlap 120 210 120 210 = true :=
  (C6_check_overlap_spec 120 210 0 0).2.2 (by decide)

/-! ## Data model (`fetch_ga_data` result bundle and friends) -/

abbrev EventId := String
abbrev VenueId := String

/-- A `ScheduleSlot` triple `(venue_id_str, start_time_utc, end_time_utc)`. -/
structure Slot where
  venue : VenueId
  start : Int
  stop : Int
deriving DecidableEq, Repr

/-- A `Chromosome` is a Python dict from event id to an optional slot. -/
abbrev Chromosome := List (EventId × Option Slot)

/-- A pending event document (the fields `calculate_fitness`,
`initialize_population` and the post-mortem code read). -/
structure Event where
  id : EventId
  organization_id : String
  requested_venue_id : Option VenueId
  requested_date : Option Int
  requested_time_start : Option Int
  requested_time_end : Option Int
  estimated_attendees : Option Int
deriving DecidableEq, Repr

/-- A venue document (fields read by the evaluator / post-mortem). -/
structure Venue where
  id : VenueId
  venue_type : String
  name : String
  occupancy : Option Int
deriving DecidableEq, Repr

/-- One entry of `unavailable_general_slots`: `{'start', 'end', 'reason'}`. -/
structure GeneralSlot where
  start : Int
  stop : Int
  reason : String
deriving DecidableEq, Repr

/-- One parsed standard-venue-blockage rule `{"start", "end", "day"}` with
naive local times stored as minutes of day. -/
structure BlockRule where
  start : Int
  stop : Int
  day : Option String
deriving DecidableEq, Repr

/-- `venue_specific_rules`: the hectic flag plus the blockage table. -/
structure VenueRules where
  is_hectic_week : Bool
  blockages : List (String × List BlockRule)
deriving DecidableEq, Repr

/-- Output of `process_weekly_constraints`. -/
structure WeekConstraints where
  unavailable_general_slots : List GeneralSlot
  venue_specific_rules : VenueRules
deriving DecidableEq, Repr

/-- An existing non-optimized schedule row. -/
structure ExistingSchedule where
  venue_id : VenueId
  event_id : String
  scheduled_start_time : Int
  scheduled_end_time : Int
deriving DecidableEq, Repr

/-- An equipment request link; `quantity` carries the Python
`req.get("quantity", 1)` default already resolved. -/
structure EquipReq where
  equipment_id_str : String
  quantity : Int
deriving DecidableEq, Repr

/-- An alternative preference row for an event. -/
structure Pref where
  preferred_venue_id : Option VenueId
  preferred_date : Option Int
  preferred_time_slot_start : Option Int
  preferred_time_slot_end : Option Int
deriving DecidableEq, Repr

/-- The `ga_data` bundle assembled by `fetch_ga_data`.
`hectic_periods_parsed` carries the per-period date lists that the source
recomputes inside `calculate_fitness` via `parse_date_string` on the calendar
reference (`_calendar_data_ref`); the parsing itself is modelled separately. -/
structure GaData where
  pending_events : List Event
  existing_schedules : List ExistingSchedule
  venues : List (VenueId × Venue)
  equipment_counts : List (String × Int)
  equipment_id_to_name : List (String × String)
  equipment_requests_by_event : List (EventId × List EquipReq)
  preferences : List (EventId × List Pref)
  week_constraints : WeekConstraints
  target_start_date : Int
  target_end_date : Int
  hectic_periods_parsed : List (List Int)
deriving DecidableEq, Repr

/-- The fitness weight dictionary with the defaults of the source resolved
(exact rationals stand in for the Python floats). -/
structure Weights where
  base_score_multiplier : Rat
  venue_preference_match : Rat
  date_match : Rat
  timeslot_match : Rat
  hectic_week_priority_bonus : Rat
  capacity_fit_penalty : Rat
  hard_constraint_penalty : Rat
deriving DecidableEq, Repr

/-- `{str(e["_id"]): e for e in ga_data["pending_events"]}`. -/
def pendingDict (gd : GaData) : List (EventId × Event) :=
  buildDict (gd.pending_events.map (fun e => (e.id, e)))

/-- The pending-event id list (`[str(e["_id"]) for e in pending_events]`). -/
def pendingIdList (gd : GaData) : List EventId :=
  gd.pending_events.map (fun e => e.id)

/-! ## Fitness Evaluator (`calculate_fitness`) -/

/-- The venue → active-slot-list dict built at the top of `calculate_fitness`
(chromosome assignments first, then existing schedules with the
`existing_` prefix on the context id). -/
abbrev ActiveMap := List (VenueId × List (Int × Int × String))

def activeSlotsByVenue (chrom : Chromosome) (existing : List ExistingSchedule) :
    ActiveMap :=
  let d := chrom.foldl
    (fun d kv =>
      match kv.2 with
      | none => d
      | some sl => dictAppend d sl.venue (sl.start, sl.stop, kv.1)) []
  existing.foldl
    (fun d ex =>
      dictAppend d ex.venue_id
        (ex.scheduled_start_time, ex.scheduled_end_time, "existing_" ++ ex.event_id)) d

/-- Hard check 1 (basic time bounds): each of the five conditions adds one
violation, exactly as the five `current_event_violations += 1` statements. -/
def fitCheck1 (tS tE s e : Int) : Nat :=
  (if ¬(tS ≤ dayOf s ∧ dayOf s < tE) then 1 else 0) +
  (if weekdayOf (dayOf s) = 6 then 1 else 0) +
  (if 1320 ≤ todOf s ∨ todOf s < 360 then 1 else 0) +
  (if e > combineDT (dayOf s + 1) 360 then 1 else 0) +
  (if (1320 < todOf e ∨ (todOf e ≤ 360 ∧ dayOf e > dayOf s)) ∧ todOf e ≠ 0
   then 1 else 0)

/-- Hard check 2 (general unavailable slots): the loop breaks after the first
overlap, so it contributes one violation iff any general slot overlaps. -/
def fitCheck2 (gen : List GeneralSlot) (s e : Int) : Nat :=
  if gen.any (fun c => check_overlap s e c.start c.stop) then 1 else 0

/-- `venue_type_key_base`: "Classroom" if the venue type contains
"classroom", else "ULS" if the venue name contains "uls". -/
def venueTypeKeyBase (vd : Venue) : Option String :=
  if strContains (pyLower vd.venue_type) "classroom" then some "Classroom"
  else if strContains (pyLower vd.name) "uls" then some "ULS"
  else none

/-- `blockage_key` from the weekday (weekday < 5 → `…_weekday`,
`= 5` → `…_weekend_Sat`, Sunday → no key). -/
def blockageKeyFor (base : String) (dow : Int) : Option String :=
  if dow < 5 then some (base ++ "_weekday")
  else if dow = 5 then some (base ++ "_weekend_Sat")
  else none

/-- Does a blockage rule apply to and overlap the slot (naive-time
`max(start) < min(end)` test, with the optional single-weekday filter)? -/
def blockRuleHits (b : BlockRule) (s e : Int) : Bool :=
  (match b.day with
   | some d => dayNameOf (weekdayOf (dayOf s)) = d
   | none => true) &&
  decide (max (todOf s) b.start < min (todOf e) b.stop)

/-- Hard check 3 (venue-specific blockages, only when not hectic): a missing
venue document counts one violation; otherwise one violation iff some
applicable rule under the venue's blockage key overlaps the slot. -/
def fitCheck3 (isHectic : Bool) (venues : List (VenueId × Venue))
    (blockages : List (String × List BlockRule)) (vid : VenueId) (s e : Int) : Nat :=
  if isHectic then 0
  else
    match alookup venues vid with
    | none => 1
    | some vd =>
      match venueTypeKeyBase vd with
      | none => 0
      | some base =>
        match blockageKeyFor base (weekdayOf (dayOf s)) with
        | none => 0
        | some key =>
          match alookup blockages key with
          | none => 0
          | some blocks => if blocks.any (fun b => blockRuleHits b s e) then 1 else 0

/-- Hard check 4 (same-venue conflicts against the chromosome's other
assignments and existing schedules); the loop breaks after the first hit. -/
def fitCheck4 (actives : ActiveMap) (eid : EventId) (vid : VenueId) (s e : Int) : Nat :=
  match alookup actives vid with
  | none => 0
  | some l =>
    if l.any (fun t => t.2.2 ≠ eid && check_overlap s e t.1 t.2.1) then 1 else 0

/-- The `concurrent_events_for_equip_check` list: this event plus every
overlapping context id that is a pending event or an `existing_` schedule
(with the `existing_` prefix stripped via `replace`). -/
def concurrentForEquip (gd : GaData) (actives : ActiveMap) (eid : EventId)
    (s e : Int) : List EventId :=
  eid :: actives.foldl
    (fun acc p =>
      acc ++ p.2.filterMap (fun t =>
        if t.2.2 ≠ eid ∧ check_overlap s e t.1 t.2.1 ∧
            (t.2.2 ∈ dictKeys (pendingDict gd) ∨ strStarts t.2.2 "existing_")
        then some (strReplace t.2.2 "existing_" "") else none)) []

/-- One step of the evaluator's demand aggregation (an unknown equipment id
is skipped without a violation). -/
def aggStep (gd : GaData) (acc : List (String × Int)) (r : EquipReq) :
    List (String × Int) :=
  match alookup gd.equipment_id_to_name r.equipment_id_str with
  | none => acc
  | some nm => dictSet acc nm ((alookup acc nm).getD 0 + r.quantity)

/-- `requests_this_slot`: aggregate equipment demand by name over a list of
event ids (requests with an unknown equipment id are skipped). -/
def aggregateEquipDemand (gd : GaData) (ids : List EventId) : List (String × Int) :=
  ids.foldl
    (fun acc cid =>
      match alookup gd.equipment_requests_by_event cid with
      | none => acc
      | some reqs => reqs.foldl (aggStep gd) acc) []

/-- Hard check 5 (equipment): one violation iff some aggregated demand entry
names unknown inventory or exceeds the available count (break on first). -/
def fitCheck5 (gd : GaData) (actives : ActiveMap) (eid : EventId) (s e : Int) : Nat :=
  let ids := dedupKeepFirst (concurrentForEquip gd actives eid s e)
  let demand := aggregateEquipDemand gd ids
  if demand.any (fun p =>
      (alookup gd.equipment_counts p.1).isNone ||
      decide (p.2 > (alookup gd.equipment_counts p.1).getD 0))
  then 1 else 0

/-- The `current_event_violations` accumulation for one scheduled event,
transcribed in the source's sequential order (checks 1-5, none skipped). -/
def eventViolations (gd : GaData) (actives : ActiveMap) (eid : EventId) (sl : Slot) : Nat :=
  let gen := gd.week_constraints.unavailable_general_slots
  let rules := gd.week_constraints.venue_specific_rules
  let v : Nat := 0
  let v := v + (if ¬(gd.target_start_date ≤ dayOf sl.start ∧
                    dayOf sl.start < gd.target_end_date) then 1 else 0)
  let v := v + (if weekdayOf (dayOf sl.start) = 6 then 1 else 0)
  let v := v + (if 1320 ≤ todOf sl.start ∨ todOf sl.start < 360 then 1 else 0)
  let v := v + (if sl.stop > combineDT (dayOf sl.start + 1) 360 then 1 else 0)
  let v := v + (if (1320 < todOf sl.stop ∨
                    (todOf sl.stop ≤ 360 ∧ dayOf sl.stop > dayOf sl.start)) ∧
                   todOf sl.stop ≠ 0 then 1 else 0)
  let v := v + (if gen.any (fun c => check_overlap sl.start sl.stop c.start c.stop)
                then 1 else 0)
  let v := v + fitCheck3 rules.is_hectic_week gd.venues rules.blockages
                sl.venue sl.start sl.stop
  let v := v + fitCheck4 actives eid sl.venue sl.start sl.stop
  let v := v + fitCheck5 gd actives eid sl.start sl.stop
  v

/-- Soft venue-preference bonus: full weight on the requested venue, 80% on
any alternative-preference venue. -/
def venuePrefScore (gd : GaData) (w : Weights) (ev : Event) (vid : VenueId) : Rat :=
  if ev.requested_venue_id = some vid then w.venue_preference_match
  else if ((alookup gd.preferences ev.id).getD []).any
            (fun p => p.preferred_venue_id = some vid)
  then w.venue_preference_match * (0.8 : Rat)
  else 0

/-- Soft date/time bonus: request-based score first, then the preference loop
folding `max(dms, pref_score * 0.8)`. -/
def datetimeMatchScore (gd : GaData) (w : Weights) (ev : Event) (s e : Int) : Rat :=
  let base : Rat :=
    match ev.requested_date with
    | some rdt =>
      if dayOf rdt = dayOf s then
        w.date_match * (0.5 : Rat) +
        (match ev.requested_time_start, ev.requested_time_end with
         | some rs, some re => if check_overlap s e rs re
                               then w.timeslot_match * (0.5 : Rat) else 0
         | _, _ => 0)
      else 0
    | none => 0
  if base < w.date_match + w.timeslot_match then
    ((alookup gd.preferences ev.id).getD []).foldl
      (fun dms p =>
        let cps : Rat :=
          match p.preferred_date with
          | some pd =>
            if pd = dayOf s then
              w.date_match * (0.5 : Rat) +
              (match p.preferred_time_slot_start, p.preferred_time_slot_end with
               | some ps, some pe => if check_overlap s e ps pe
                                     then w.timeslot_match * (0.5 : Rat) else 0
               | _, _ => 0)
            else 0
          | none => 0
        max dms (cps * (0.8 : Rat))) base
  else base

/-- Soft hectic-week bonus: paid when the originally requested date falls
inside some hectic period's parsed date span. -/
def hecticBonus (gd : GaData) (w : Weights) (ev : Event) : Rat :=
  match ev.requested_date with
  | none => 0
  | some rdt =>
    if gd.week_constraints.venue_specific_rules.is_hectic_week ∧
        gd.hectic_periods_parsed.any (fun ds =>
          match ds.min?, ds.max? with
          | some mn, some mx => decide (mn ≤ dayOf rdt) && decide (dayOf rdt ≤ mx)
          | _, _ => false)
    then w.hectic_week_priority_bonus else 0

/-- Soft capacity-overage penalty.  In the source the `venue_doc` read here is
the one bound inside the non-hectic branch of hard check 3 (on a hectic week
that name is never bound); the embedding performs the same
`venues_data.get(venue_id)` lookup directly. -/
def capacityPenalty (gd : GaData) (w : Weights) (ev : Event) (vid : VenueId) : Rat :=
  match alookup gd.venues vid with
  | none => 0
  | some vd =>
    match vd.occupancy, ev.estimated_attendees with
    | some cap, some att =>
      if att > cap then
        w.capacity_fit_penalty *
          (1 + ((att - cap : Int) : Rat) / ((max 1 cap : Int) : Rat))
      else 0
    | _, _ => 0

/-- The soft score accrued by a non-violating scheduled event. -/
def eventSoftScore (gd : GaData) (w : Weights) (ev : Event) (sl : Slot) : Rat :=
  w.base_score_multiplier +
  venuePrefScore gd w ev sl.venue +
  datetimeMatchScore gd w ev sl.start sl.stop +
  hecticBonus gd w ev +
  capacityPenalty gd w ev sl.venue

/-- `calculate_fitness`: fold over the chromosome accumulating the soft score
(only for events with zero violations) and the hard-violation count; a
scheduled id with no pending-event document counts one violation. -/
def calculate_fitness (chrom : Chromosome) (gd : GaData) (w : Weights) : Rat × Nat :=
  let actives := activeSlotsByVenue chrom gd.existing_schedules
  let pd := pendingDict gd
  let res := chrom.foldl
    (fun (acc : Rat × Nat) kv =>
      match kv.2 with
      | none => acc
      | some sl =>
        match alookup pd kv.1 with
        | none => (acc.1, acc.2 + 1)
        | some ev =>
          let v := eventViolations gd actives kv.1 sl
          ((if v = 0 then acc.1 + eventSoftScore gd w ev sl else acc.1),
           acc.2 + v)) ((0 : Rat), (0 : Nat))
  (res.1 - (res.2 : Rat) * w.hard_constraint_penalty, res.2)

/-- Per-event hard-violation contribution viewed as a pure function of the
chromosome entry (the clean counterpart of the accumulation in
`calculate_fitness`). -/
def violContrib (gd : GaData) (actives : ActiveMap) (kv : EventId × Option Slot) : Nat :=
  match kv.2 with
  | none => 0
  | some sl =>
    match alookup (pendingDict gd) kv.1 with
    | none => 1
    | some _ => eventViolations gd actives kv.1 sl

/-- Per-event soft-score contribution: paid only when the event's own
violation count is zero. -/
def softContrib (gd : GaData) (w : Weights) (actives : ActiveMap)
    (kv : EventId × Option Slot) : Rat :=
  match kv.2 with
  | none => 0
  | some sl =>
    match alookup (pendingDict gd) kv.1 with
    | none => 0
    | some ev =>
      if eventViolations gd actives kv.1 sl = 0 then eventSoftScore gd w ev sl else 0

theorem fitness_foldl_decomp (gd : GaData) (w : Weights) (actives : ActiveMap)
    (l : List (EventId × Option Slot)) :
    ∀ acc : Rat × Nat,
      l.foldl
        (fun (acc : Rat × Nat) kv =>
          match kv.2 with
          | none => acc
          | some sl =>
            match alookup (pendingDict gd) kv.1 with
            | none => (acc.1, acc.2 + 1)
            | some ev =>
              let v := eventViolations gd actives kv.1 sl
              ((if v = 0 then acc.1 + eventSoftScore gd w ev sl else acc.1),
               acc.2 + v)) acc
      = (acc.1 + (l.map (softContrib gd w actives)).sum,
         acc.2 + (l.map (violContrib gd actives)).sum) := by
  induction l with
  | nil => intro acc; simp
  | cons kv rest ih =>
    intro acc
    simp only [List.foldl_cons, List.map_cons, List.sum_cons]
    rw [ih]
    rcases kv with ⟨eid, osl⟩
    cases osl with
    | none =>
      simp only [softContrib, violContrib]
      refine Prod.ext ?_ ?_
      · simp; try ring
      · simp; try omega
    | some sl =>
      cases h : alookup (pendingDict gd) eid with
      | none =>
        simp only [softContrib, violContrib, h]
        refine Prod.ext ?_ ?_
        · simp; try ring
        · simp; try omega
      | some ev =>
        simp only [softContrib, violContrib, h]
        by_cases hv : eventViolations gd actives eid sl = 0
        · refine Prod.ext ?_ ?_
          · simp [hv]; try ring
          · simp [hv]; try omega
        · refine Prod.ext ?_ ?_
          · simp [hv]; try ring
          · simp [hv]; try omega

/-- C2 (amended): for every event with a non-null assignment the Evaluator
runs all five hard check groups — none is skipped after a failure — and the
event's contribution to the hard-violation counter is the sum of the
individual check contributions (so a single event can contribute more than
one); its soft score is earned exactly when that sum is zero, and the total
fitness decomposes accordingly. -/
theorem C2_checks_all_accumulate :
    ∀ (gd : GaData) (w : Weights) (chrom : Chromosome),
      (∀ (actives : ActiveMap) (eid : EventId) (sl : Slot),
        eventViolations gd actives eid sl =
          fitCheck1 gd.target_start_date gd.target_end_date sl.start sl.stop +
          fitCheck2 gd.week_constraints.unavailable_general_slots sl.start sl.stop +
          fitCheck3 gd.week_constraints.venue_specific_rules.is_hectic_week
            gd.venues gd.week_constraints.venue_specific_rules.blockages
            sl.venue sl.start sl.stop +
          fitCheck4 actives eid sl.venue sl.start sl.stop +
          fitCheck5 gd actives eid sl.start sl.stop) ∧
      calculate_fitness chrom gd w =
        ((chrom.map
            (softContrib gd w (activeSlotsByVenue chrom gd.existing_schedules))).sum -
           ((chrom.map
              (violContrib gd (activeSlotsByVenue chrom gd.existing_schedules))).sum : Nat) *
             w.hard_constraint_penalty,
         (chrom.map
            (violContrib gd (activeSlotsByVenue chrom gd.existing_schedules))).sum) := by
  intro gd w chrom
  constructor
  · intro actives eid sl
    simp only [eventViolations, fitCheck1, fitCheck2]
    omega
  · simp only [calculate_fitness]
    rw [fitness_foldl_decomp]
    simp

/-- Concrete evaluator context for the C2 counterexample: a one-event,
one-venue week `[0, 7)` whose Sunday (day 3) carries the usual full-day
"Sunday Blockage" general slot, no hectic week, no blockage rules, no
equipment. -/
def c2Gd : GaData :=
  { pending_events :=
      [{ id := "e1", organization_id := "o1", requested_venue_id := none,
         requested_date := none, requested_time_start := none,
         requested_time_end := none, estimated_attendees := some 40 }],
    existing_schedules := [],
    venues := [("v1", { id := "v1", venue_type := "Hall", name := "Main Hall",
                        occupancy := some 500 })],
    equipment_counts := [], equipment_id_to_name := [],
    equipment_requests_by_event := [], preferences := [],
    week_constraints :=
      { unavailable_general_slots :=
          [{ start := 4320, stop := 5760, reason := "Sunday Blockage" }],
        venue_specific_rules := { is_hectic_week := false, blockages := [] } },
    target_start_date := 0, target_end_date := 7,
    hectic_periods_parsed := [] }

/-- C2 counterexample: the claim "on the first failing check the event
contributes exactly one to the violation counter (subsequent checks are
skipped)" is false.  In `c2Gd`, event "e1" scheduled on Sunday 10:00-11:30
(absolute minutes 4920-5010) fails check 1 (Sunday) and *also* check 2 (the
"Sunday Blockage" general slot), contributing two violations. -/
theorem C2_counterexample :
    ¬ (∀ (gd : GaData) (actives : ActiveMap) (eid : EventId) (sl : Slot),
        0 < eventViolations gd actives eid sl →
        eventViolations gd actives eid sl = 1) := by
  intro h
  have h2 := h c2Gd [] "e1" ⟨"v1", 4920, 5010⟩ (by decide)
  revert h2
  decide

/-! ## Post-Mortem slot check (`_check_slot_constraints_for_reason`) -/

/-- Two-digit zero padding for `%H:%M` formatting. -/
def pad2 (n : Int) : String := if n < 10 then "0" ++ toString n else toString n

/-- `time.strftime('%H:%M')` on minutes of day. -/
def fmtHM (m : Int) : String := pad2 (m.fdiv 60) ++ ":" ++ pad2 (m.emod 60)

/-- Post-mortem section 1 (basic time bounds), returning the first failure's
reason; the five conditions are those of Evaluator check 1. -/
def pmTimeCheck (tS tE s e : Int) : Option String :=
  if ¬(tS ≤ dayOf s ∧ dayOf s < tE) then
    some ("Outside Target Week (" ++ toString (dayOf s) ++ ")")
  else if weekdayOf (dayOf s) = 6 then some "Sunday Blockage"
  else if 1320 ≤ todOf s ∨ todOf s < 360 then some "Night Curfew"
  else if e > combineDT (dayOf s + 1) 360 then some "Night Curfew (Ends past 06:00)"
  else if (1320 < todOf e ∨ (todOf e ≤ 360 ∧ dayOf e > dayOf s)) ∧ todOf e ≠ 0 then
    some "Night Curfew"
  else none

/-- Post-mortem section 2: first overlapping general slot's stored reason. -/
def pmGeneralCheck (gen : List GeneralSlot) (s e : Int) : Option String :=
  (gen.find? (fun c => check_overlap s e c.start c.stop)).map (fun c => c.reason)

/-- Post-mortem section 3 (venue blockages, skipped on hectic weeks). -/
def pmVenueCheck (isHectic : Bool) (venues : List (VenueId × Venue))
    (blockages : List (String × List BlockRule)) (vid : VenueId) (s e : Int) :
    Option String :=
  if isHectic then none
  else
    match alookup venues vid with
    | none => some ("Venue Not Found (" ++ vid ++ ")")
    | some vd =>
      match venueTypeKeyBase vd with
      | none => none
      | some base =>
        match blockageKeyFor base (weekdayOf (dayOf s)) with
        | none => none
        | some key =>
          match alookup blockages key with
          | none => none
          | some blocks =>
            (blocks.find? (fun b => blockRuleHits b s e)).map (fun b =>
              "Venue Blockage: " ++ key ++
                (match b.day with
                 | some d => " (" ++ d ++ ")"
                 | none => "") ++
                " (" ++ fmtHM b.start ++ "-" ++ fmtHM b.stop ++ ")")

/-- Does one equipment request resolve to a name present in inventory? -/
def reqOk (gd : GaData) (r : EquipReq) : Bool :=
  match alookup gd.equipment_id_to_name r.equipment_id_str with
  | none => false
  | some nm => (alookup gd.equipment_counts nm).isSome

/-- One step of the post-mortem own-request accumulation (early error on an
unknown equipment id or a name absent from inventory). -/
def pmEquipStep (gd : GaData) (acc : Except String (List (String × Int)))
    (r : EquipReq) : Except String (List (String × Int)) :=
  match acc with
  | .error msg => .error msg
  | .ok d =>
    match alookup gd.equipment_id_to_name r.equipment_id_str with
    | some nm =>
      if (alookup gd.equipment_counts nm).isNone then
        .error ("Equipment Not Found: '" ++ nm ++ "'")
      else .ok (dictSet d nm ((alookup d nm).getD 0 + r.quantity))
    | none => .error ("Equipment Not Found (ID: " ++ r.equipment_id_str ++ ")")

/-- `requests_this_slot` of the post-mortem check: only this event's own
requests, with the source's early returns as errors. -/
def pmOwnDemand (gd : GaData) (eid : EventId) :
    Except String (List (String × Int)) :=
  match alookup gd.equipment_requests_by_event eid with
  | none => .ok []
  | some reqs => reqs.foldl (pmEquipStep gd) (.ok [])

/-- Post-mortem section 4: equipment availability for this event alone. -/
def pmEquipCheck (gd : GaData) (eid : EventId) : Option String :=
  match pmOwnDemand gd eid with
  | .error msg => some msg
  | .ok demand =>
    (demand.find? (fun p =>
        decide (p.2 > (alookup gd.equipment_counts p.1).getD 0))).map (fun p =>
      "Equipment Unavailable: '" ++ p.1 ++ "' (Requires " ++ toString p.2 ++
        ", Available " ++ toString ((alookup gd.equipment_counts p.1).getD 0) ++ ")")

/-- Post-mortem section 5: capacity check (a missing venue document at this
point is a data error). -/
def pmCapCheck (gd : GaData) (ev : Event) (vid : VenueId) : Option String :=
  match alookup gd.venues vid with
  | some vd =>
    match vd.occupancy, ev.estimated_attendees with
    | some cap, some att =>
      if att > cap then
        some ("Capacity Exceeded (Needs " ++ toString att ++ ", Venue Capacity " ++
          toString cap ++ ")")
      else none
    | _, _ => none
  | none => some ("Venue Data Error (" ++ vid ++ ")")

/-- `_check_slot_constraints_for_reason`: the five sections in source order,
returning the first failure reason. -/
def _check_slot_constraints_for_reason (gd : GaData) (ev : Event) (vid : VenueId)
    (s e : Int) : Option String :=
  match pmTimeCheck gd.target_start_date gd.target_end_date s e with
  | some r => some r
  | none =>
    match pmGeneralCheck gd.week_constraints.unavailable_general_slots s e with
    | some r => some r
    | none =>
      match pmVenueCheck gd.week_constraints.venue_specific_rules.is_hectic_week
          gd.venues gd.week_constraints.venue_specific_rules.blockages vid s e with
      | some r => some r
      | none =>
        match pmEquipCheck gd ev.id with
        | some r => some r
        | none => pmCapCheck gd ev vid

/-- `ownEquipOk`: every own equipment request resolves to inventory and the
event's own aggregated demand stays within the counts. -/
def ownEquipOk (gd : GaData) (eid : EventId) : Bool :=
  ((alookup gd.equipment_requests_by_event eid).getD []).all (fun r => reqOk gd r) &&
  (aggregateEquipDemand gd [eid]).all
    (fun p => decide (p.2 ≤ (alookup gd.equipment_counts p.1).getD 0))

/-- `venueCapacityOk`: the venue exists and (when both numbers are present)
the estimated attendees fit its occupancy. -/
def venueCapacityOk (gd : GaData) (ev : Event) (vid : VenueId) : Bool :=
  match alookup gd.venues vid with
  | none => false
  | some vd =>
    match vd.occupancy, ev.estimated_attendees with
    | some cap, some att => decide (att ≤ cap)
    | _, _ => true

theorem pmTime_none_iff (tS tE s e : Int) :
    pmTimeCheck tS tE s e = none ↔ fitCheck1 tS tE s e = 0 := by
  simp only [pmTimeCheck, fitCheck1]
  by_cases h1 : tS ≤ dayOf s ∧ dayOf s < tE
  · by_cases h2 : weekdayOf (dayOf s) = 6
    · simp [h1, h2]
    · by_cases h3 : 1320 ≤ todOf s ∨ todOf s < 360
      · simp [h1, h2, h3]
      · by_cases h4 : e > combineDT (dayOf s + 1) 360
        · simp [h1, h2, h3, h4]
        · by_cases h5 : (1320 < todOf e ∨ (todOf e ≤ 360 ∧ dayOf e > dayOf s)) ∧
              todOf e ≠ 0
          · simp [h1, h2, h3, h4, h5]
          · simp [h1, h2, h3, h4, h5]
  · simp [h1]

theorem pmGeneral_none_iff (gen : List GeneralSlot) (s e : Int) :
    pmGeneralCheck gen s e = none ↔ fitCheck2 gen s e = 0 := by
  simp only [pmGeneralCheck, fitCheck2]
  cases h : gen.find? (fun c => check_overlap s e c.start c.stop) with
  | none =>
    have hall := List.find?_eq_none.mp h
    have : gen.any (fun c => check_overlap s e c.start c.stop) = false := by
      rw [List.any_eq_false]
      intro c hc
      simpa using hall c hc
    simp [this]
  | some c =>
    have hp := List.find?_some h
    have hmem := List.mem_of_find?_eq_some h
    have : gen.any (fun c => check_overlap s e c.start c.stop) = true :=
      List.any_eq_true.mpr ⟨c, hmem, hp⟩
    simp [this]

theorem pmVenue_none_iff (isHectic : Bool) (venues : List (VenueId × Venue))
    (blockages : List (String × List BlockRule)) (vid : VenueId) (s e : Int) :
    pmVenueCheck isHectic venues blockages vid s e = none ↔
      fitCheck3 isHectic venues blockages vid s e = 0 := by
  simp only [pmVenueCheck, fitCheck3]
  cases isHectic with
  | true => simp
  | false =>
    simp only [Bool.false_eq_true, if_false]
    cases hv : alookup venues vid with
    | none => simp [hv]
    | some vd =>
      cases hb : venueTypeKeyBase vd with
      | none => simp [hv, hb]
      | some base =>
        cases hk : blockageKeyFor base (weekdayOf (dayOf s)) with
        | none => simp [hv, hb, hk]
        | some key =>
          cases hbl : alookup blockages key with
          | none => simp [hv, hb, hk, hbl]
          | some blocks =>
            cases hf : blocks.find? (fun b => blockRuleHits b s e) with
            | none =>
              have hall := List.find?_eq_none.mp hf
              have hany : blocks.any (fun b => blockRuleHits b s e) = false := by
                rw [List.any_eq_false]
                intro b hbm
                simpa using hall b hbm
              simp [hv, hb, hk, hbl, hf, hany]
            | some b =>
              have hp := List.find?_some hf
              have hmem := List.mem_of_find?_eq_some hf
              have hany : blocks.any (fun b => blockRuleHits b s e) = true :=
                List.any_eq_true.mpr ⟨b, hmem, hp⟩
              simp [hv, hb, hk, hbl, hf, hany]

theorem pmCap_none_iff (gd : GaData) (ev : Event) (vid : VenueId) :
    pmCapCheck gd ev vid = none ↔ venueCapacityOk gd ev vid = true := by
  simp only [pmCapCheck, venueCapacityOk]
  cases hv : alookup gd.venues vid with
  | none => simp [hv]
  | some vd =>
    cases hc : vd.occupancy with
    | none => simp [hv, hc]
    | some cap =>
      cases ha : ev.estimated_attendees with
      | none => simp [hv, hc, ha]
      | some att =>
        by_cases hgt : att > cap
        · simp [hv, hc, ha, hgt]
          try omega
        · simp [hv, hc, ha, hgt]
          try omega

theorem foldl_pmEquipStep_error (gd : GaData) (reqs : List EquipReq) (msg : String) :
    reqs.foldl (pmEquipStep gd) (.error msg) = .error msg := by
  induction reqs with
  | nil => rfl
  | cons r rest ih => simpa [pmEquipStep] using ih

theorem pmEquipStep_ok_of_reqOk (gd : GaData) (d : List (String × Int))
    (r : EquipReq) (hr : reqOk gd r = true) :
    pmEquipStep gd (.ok d) r = .ok (aggStep gd d r) := by
  cases hn : alookup gd.equipment_id_to_name r.equipment_id_str with
  | none =>
    unfold reqOk at hr
    rw [hn] at hr
    simp at hr
  | some nm =>
    have hr' : (alookup gd.equipment_counts nm).isSome = true := by
      unfold reqOk at hr
      rw [hn] at hr
      exact hr
    have hne : (alookup gd.equipment_counts nm).isNone = false := by
      cases hcc : alookup gd.equipment_counts nm with
      | none => rw [hcc] at hr'; simp at hr'
      | some _ => simp
    simp [pmEquipStep, aggStep, hn, hne]

theorem pmEquipStep_error_of_bad (gd : GaData) (d : List (String × Int))
    (r : EquipReq) (hr : reqOk gd r = false) :
    ∃ msg, pmEquipStep gd (.ok d) r = .error msg := by
  cases hn : alookup gd.equipment_id_to_name r.equipment_id_str with
  | none =>
    exact ⟨"Equipment Not Found (ID: " ++ r.equipment_id_str ++ ")",
      by simp [pmEquipStep, hn]⟩
  | some nm =>
    have hr' : (alookup gd.equipment_counts nm).isSome = false := by
      unfold reqOk at hr
      rw [hn] at hr
      exact hr
    have hno : (alookup gd.equipment_counts nm).isNone = true := by
      cases hcc : alookup gd.equipment_counts nm with
      | none => simp
      | some _ => rw [hcc] at hr'; simp at hr'
    exact ⟨"Equipment Not Found: '" ++ nm ++ "'", by simp [pmEquipStep, hn, hno]⟩

theorem foldl_pmEquipStep_ok (gd : GaData) (reqs : List EquipReq) :
    ∀ d, reqs.all (fun r => reqOk gd r) = true →
      reqs.foldl (pmEquipStep gd) (.ok d) = .ok (reqs.foldl (aggStep gd) d) := by
  induction reqs with
  | nil => intro d _; rfl
  | cons r rest ih =>
    intro d hall
    rw [List.all_cons, Bool.and_eq_true] at hall
    obtain ⟨hr, hrest⟩ := hall
    rw [List.foldl_cons, List.foldl_cons, pmEquipStep_ok_of_reqOk gd d r hr]
    exact ih _ hrest

theorem foldl_pmEquipStep_bad (gd : GaData) (reqs : List EquipReq) :
    ∀ d, reqs.all (fun r => reqOk gd r) = false →
      ∃ msg, reqs.foldl (pmEquipStep gd) (.ok d) = .error msg := by
  induction reqs with
  | nil => intro d h; simp at h
  | cons r rest ih =>
    intro d hall
    rw [List.all_cons, Bool.and_eq_false_iff] at hall
    rw [List.foldl_cons]
    by_cases hr : reqOk gd r = true
    · have hrest : rest.all (fun r => reqOk gd r) = false := by
        cases hall with
        | inl h => exact absurd hr (by simp [h])
        | inr h => exact h
      rw [pmEquipStep_ok_of_reqOk gd d r hr]
      exact ih _ hrest
    · have hfr : reqOk gd r = false := by
        cases hh : reqOk gd r with
        | true => exact absurd hh hr
        | false => rfl
      obtain ⟨msg, hmsg⟩ := pmEquipStep_error_of_bad gd d r hfr
      rw [hmsg]
      exact ⟨msg, foldl_pmEquipStep_error gd rest msg⟩

theorem pmEquip_none_iff (gd : GaData) (eid : EventId) :
    pmEquipCheck gd eid = none ↔ ownEquipOk gd eid = true := by
  simp only [pmEquipCheck, pmOwnDemand, ownEquipOk]
  cases hr : alookup gd.equipment_requests_by_event eid with
  | none =>
    simp only [Option.getD_none, List.all_nil, Bool.true_and]
    have : aggregateEquipDemand gd [eid] = [] := by
      simp [aggregateEquipDemand, hr]
    simp [this]
  | some reqs =>
    simp only [Option.getD_some]
    have hagg : aggregateEquipDemand gd [eid] = reqs.foldl (aggStep gd) [] := by
      simp [aggregateEquipDemand, hr]
    by_cases hall : reqs.all (fun r => reqOk gd r) = true
    · rw [foldl_pmEquipStep_ok gd reqs [] hall, hagg, hall]
      simp only [Bool.true_and]
      cases hf : (reqs.foldl (aggStep gd) []).find? (fun p =>
          decide (p.2 > (alookup gd.equipment_counts p.1).getD 0)) with
      | none =>
        have hnone := List.find?_eq_none.mp hf
        have : (reqs.foldl (aggStep gd) []).all
            (fun p => decide (p.2 ≤ (alookup gd.equipment_counts p.1).getD 0)) = true := by
          rw [List.all_eq_true]
          intro p hp
          have := hnone p hp
          simp at this ⊢
          omega
        simp [this]
      | some p =>
        have hp := List.find?_some hf
        have hmem := List.mem_of_find?_eq_some hf
        have : (reqs.foldl (aggStep gd) []).all
            (fun q => decide (q.2 ≤ (alookup gd.equipment_counts q.1).getD 0)) = false := by
          rw [List.all_eq_false]
          refine ⟨p, hmem, ?_⟩
          simp at hp ⊢
          omega
        simp [this]
    · have hfalse : reqs.all (fun r => reqOk gd r) = false := by
        cases hh : reqs.all (fun r => reqOk gd r) with
        | true => exact absurd hh hall
        | false => rfl
      obtain ⟨msg, hmsg⟩ := foldl_pmEquipStep_bad gd reqs [] hfalse
      rw [hmsg, hfalse]
      simp

/-- C7 (amended): the post-mortem slot check is a pure function of the event,
venue, times and compiled constraints — changing the other pending events or
existing schedules never changes its result, and it can never report a
cross-event same-venue conflict (Evaluator check 4 has no counterpart).  It
passes exactly when the single-event analogues of Evaluator hard checks 1-3
pass, the event's own equipment requests resolve and fit the inventory, and —
beyond the Evaluator's hard checks — the venue exists and its capacity is not
exceeded (capacity is only a soft penalty in the Evaluator). -/
theorem C7_postmortem_single_event :
    ∀ (gd : GaData) (ev : Event) (vid : VenueId) (s e : Int)
      (es : List ExistingSchedule) (pe : List Event),
      (_check_slot_constraints_for_reason
          { gd with existing_schedules := es, pending_events := pe } ev vid s e =
        _check_slot_constraints_for_reason gd ev vid s e) ∧
      (_check_slot_constraints_for_reason gd ev vid s e = none ↔
        (fitCheck1 gd.target_start_date gd.target_end_date s e = 0 ∧
         fitCheck2 gd.week_constraints.unavailable_general_slots s e = 0 ∧
         fitCheck3 gd.week_constraints.venue_specific_rules.is_hectic_week
           gd.venues gd.week_constraints.venue_specific_rules.blockages vid s e = 0 ∧
         ownEquipOk gd ev.id = true ∧
         venueCapacityOk gd ev vid = true)) := by
  intro gd ev vid s e es pe
  refine ⟨rfl, ?_⟩
  simp only [_check_slot_constraints_for_reason]
  cases h1 : pmTimeCheck gd.target_start_date gd.target_end_date s e with
  | some r =>
    have hnc : ¬ fitCheck1 gd.target_start_date gd.target_end_date s e = 0 := by
      rw [← pmTime_none_iff, h1]
      simp
    simp [hnc]
  | none =>
    have hc1 := (pmTime_none_iff gd.target_start_date gd.target_end_date s e).mp h1
    cases h2 : pmGeneralCheck gd.week_constraints.unavailable_general_slots s e with
    | some r =>
      have hnc : ¬ fitCheck2 gd.week_constraints.unavailable_general_slots s e = 0 := by
        rw [← pmGeneral_none_iff, h2]
        simp
      simp [hc1, hnc]
    | none =>
      have hc2 := (pmGeneral_none_iff gd.week_constraints.unavailable_general_slots s e).mp h2
      cases h3 : pmVenueCheck gd.week_constraints.venue_specific_rules.is_hectic_week
          gd.venues gd.week_constraints.venue_specific_rules.blockages vid s e with
      | some r =>
        have hnc : ¬ fitCheck3 gd.week_constraints.venue_specific_rules.is_hectic_week
            gd.venues gd.week_constraints.venue_specific_rules.blockages vid s e = 0 := by
          rw [← pmVenue_none_iff, h3]
          simp
        simp [hc1, hc2, hnc]
      | none =>
        have hc3 := (pmVenue_none_iff gd.week_constraints.venue_specific_rules.is_hectic_week
          gd.venues gd.week_constraints.venue_specific_rules.blockages vid s e).mp h3
        cases h4 : pmEquipCheck gd ev.id with
        | some r =>
          have hnc : ¬ ownEquipOk gd ev.id = true := by
            rw [← pmEquip_none_iff, h4]
            simp
          simp [hc1, hc2, hc3, hnc]
        | none =>
          have hc4 := (pmEquip_none_iff gd ev.id).mp h4
          simp [hc1, hc2, hc3, hc4, pmCap_none_iff]

/-- Concrete context for the C7 counterexample: a clean Monday slot in a
constraint-free week, with 100 estimated attendees against a 50-person
venue. -/
def c7Ev : Event :=
  { id := "e1", organization_id := "o1", requested_venue_id := none,
    requested_date := none, requested_time_start := none,
    requested_time_end := none, estimated_attendees := some 100 }

def c7Gd : GaData :=
  { pending_events := [c7Ev],
    existing_schedules := [],
    venues := [("v1", { id := "v1", venue_type := "Hall", name := "Main Hall",
                        occupancy := some 50 })],
    equipment_counts := [], equipment_id_to_name := [],
    equipment_requests_by_event := [], preferences := [],
    week_constraints :=
      { unavailable_general_slots := [],
        venue_specific_rules := { is_hectic_week := false, blockages := [] } },
    target_start_date := 0, target_end_date := 7,
    hectic_periods_parsed := [] }

/-- C7 counterexample: the post-mortem slot check is not equivalent to
Evaluator hard checks 1-3 and 5.  On `c7Gd`, Monday 10:00-11:30 (minutes
6360-6450) passes every Evaluator hard check for the lone event, yet the
post-mortem check still reports a reason (capacity overage, which the
Evaluator treats only as a soft penalty). -/
theorem C7_counterexample :
    ¬ (∀ (gd : GaData) (ev : Event) (vid : VenueId) (s e : Int),
        (_check_slot_constraints_for_reason gd ev vid s e = none ↔
          (fitCheck1 gd.target_start_date gd.target_end_date s e = 0 ∧
           fitCheck2 gd.week_constraints.unavailable_general_slots s e = 0 ∧
           fitCheck3 gd.week_constraints.venue_specific_rules.is_hectic_week
             gd.venues gd.week_constraints.venue_specific_rules.blockages vid s e = 0 ∧
           fitCheck5 gd
             (activeSlotsByVenue [("e1", some ⟨vid, s, e⟩)] gd.existing_schedules)
             ev.id s e = 0))) := by
  intro h
  have h2 := (h c7Gd c7Ev "v1" 6360 6450).mpr (by decide)
  revert h2
  decide

/-! ## Population Initializer / Crossover / Mutation -/

/-- The event's scheduling duration in minutes: the requested span when
positive, else the 1.5-hour default. -/
def eventDuration (ev : Event) : Int :=
  match ev.requested_time_start, ev.requested_time_end with
  | some rs, some re => if re - rs > 0 then re - rs else 90
  | _, _ => 90

/-- `random.choice([0, 15, 30, 45])` via an oracle index. -/
def pickMinute (n : Nat) : Int := [0, 15, 30, 45].getD (n % 4) 0

/-- The oracle for one `initialize_population` gene: the outcomes of the
`random.random()` / `random.choice` / `random.randint` draws of the source
(`dayDraws i` is the `randint(0, 6)` of retry `i`, used modulo 7; the start
hour is `6 + hourDraw mod 15`, matching `randint(6, 20)`). -/
structure InitDecision where
  trySchedule : Bool
  venuePick : Nat
  useReq : Bool
  dayDraws : Nat → Int
  hourDraw : Int
  minutePick : Nat

/-- The non-Sunday date search (`while attempts < 10`): the first non-Sunday
among the ten draws, else the final (tenth) draw. -/
def drawScheduleDate (startDate : Int) (draws : Nat → Int) : Int :=
  let cands := (List.range 10).map (fun i => startDate + (draws i).emod 7)
  match cands.find? (fun d => weekdayOf d ≠ 6) with
  | some d => d
  | none => startDate + (draws 9).emod 7

/-- A placeholder venue used only to make `random.choice` total; never
selected because the callers guard on a nonempty venue list. -/
def dummyVenue : Venue := { id := "", venue_type := "", name := "", occupancy := none }

/-- The final end-time validity checks applied to a candidate start in
`initialize_population` (spans past 06:00 next day, or ends after 22:00). -/
def finishGene (ev : Event) (vid : VenueId) (st : Int) : Option Slot :=
  let et := st + eventDuration ev
  if dayOf et > dayOf st ∧ todOf et > 360 then none
  else if todOf et > 1320 ∧ todOf et ≠ 0 then none
  else some ⟨vid, st, et⟩

/-- One event's gene in `initialize_population`: 90% schedule attempt, the
50% requested-slot path (inside the week, non-Sunday, non-curfew start),
otherwise a random day/time; venue choice is always random. -/
def initGene (gd : GaData) (venues : List Venue) (ev : Event) (d : InitDecision) :
    Option Slot :=
  if ¬ d.trySchedule then none
  else
    let venue := venues.getD (d.venuePick % venues.length) dummyVenue
    let reqPair : Option Int :=
      if d.useReq ∧ ev.requested_date.isSome ∧ ev.requested_time_start.isSome then
        match ev.requested_date, ev.requested_time_start with
        | some rdt, some rst =>
          if gd.target_start_date ≤ dayOf rdt ∧ dayOf rdt < gd.target_end_date ∧
              weekdayOf (dayOf rdt) ≠ 6 then
            if 1320 ≤ todOf rst ∨ todOf rst < 360 then none else some rst
          else none
        | _, _ => none
      else none
    match reqPair with
    | some st => finishGene ev venue.id st
    | none =>
      let sd := drawScheduleDate gd.target_start_date d.dayDraws
      if weekdayOf sd = 6 then none
      else
        let st := combineDT sd ((6 + d.hourDraw.emod 15) * 60 + pickMinute d.minutePick)
        finishGene ev venue.id st

/-- `initialize_population`: no venues aborts with an empty population; no
pending events yields empty chromosomes; otherwise each chromosome assigns a
gene to every pending event. -/
def initialize_population (size : Nat) (orc : Nat → EventId → InitDecision)
    (gd : GaData) : List Chromosome :=
  let venues := gd.venues.map Prod.snd
  if venues.isEmpty then []
  else if gd.pending_events.isEmpty then List.replicate size []
  else
    (List.range size).map (fun i =>
      gd.pending_events.foldl
        (fun chrom ev => dictSet chrom ev.id (initGene gd venues ev (orc i ev.id))) [])

/-- The oracle for one `crossover` call (`doCross` is the outcome of
`random.random() < rate`, `pick1 id` the per-event 50/50 coin). -/
structure CrossDecision where
  doCross : Bool
  pick1 : EventId → Bool

/-- One event's exchange in `crossover`: the 50/50 coin decides which
parent's assignment goes to child 1 (missing parent keys read as `None` via
`.get`). -/
def crossStep (dec : CrossDecision) (parent1 parent2 : Chromosome)
    (cs : Chromosome × Chromosome) (ev : Event) : Chromosome × Chromosome :=
  let slot1 := (alookup parent1 ev.id).getD none
  let slot2 := (alookup parent2 ev.id).getD none
  let x1 := if dec.pick1 ev.id then slot1 else slot2
  let x2 := if dec.pick1 ev.id then slot2 else slot1
  (dictSet cs.1 ev.id x1, dictSet cs.2 ev.id x2)

/-- `crossover`: unmodified copies below the rate; otherwise uniform
per-event exchange over the full pending-event list. -/
def crossover (dec : CrossDecision) (parent1 parent2 : Chromosome) (gd : GaData) :
    Chromosome × Chromosome :=
  if ¬ dec.doCross then (parent1, parent2)
  else gd.pending_events.foldl (crossStep dec parent1 parent2) ([], [])

/-- The oracle for one event's mutation (`iterBudget` bounds the total loop
iterations: the source's `while attempts < 5` loop increments `attempts`
only on Sunday draws and bare-`continue`s on the end-time checks, so a
terminating run of the source corresponds to some budget). -/
structure MutDecision where
  mutate : Bool
  venuePick : Nat → Nat
  dayDraw : Nat → Int
  hourDraw : Nat → Int
  minutePick : Nat → Nat
  iterBudget : Nat

/-- The mutation retry loop: random venue/day/time, skipping Sundays (which
consume one of the five attempts) and candidates failing the curfew checks;
`none` when the attempt budget or the iteration budget runs out. -/
def mutAux (gd : GaData) (venues : List Venue) (eid : EventId) (d : MutDecision) :
    Nat → Nat → Nat → Option Slot
  | _, _, 0 => none
  | iter, attempts, fuel + 1 =>
    if 5 ≤ attempts then none
    else
      let venue := venues.getD (d.venuePick iter % venues.length) dummyVenue
      let sd := gd.target_start_date + (d.dayDraw iter).emod 7
      if weekdayOf sd = 6 then mutAux gd venues eid d (iter + 1) (attempts + 1) fuel
      else
        let dur := match gd.pending_events.find? (fun e => e.id = eid) with
                   | some ev => eventDuration ev
                   | none => 90
        let st := combineDT sd
          ((6 + (d.hourDraw iter).emod 15) * 60 + pickMinute (d.minutePick iter))
        let et := st + dur
        if dayOf et > dayOf st ∧ todOf et > 360 then
          mutAux gd venues eid d (iter + 1) attempts fuel
        else if todOf et > 1320 ∧ todOf et ≠ 0 then
          mutAux gd venues eid d (iter + 1) attempts fuel
        else if 1320 ≤ todOf st ∨ todOf st < 360 then
          mutAux gd venues eid d (iter + 1) attempts fuel
        else some ⟨venue.id, st, et⟩

/-- The freshly generated random slot of one mutated event. -/
def mutNewSlot (gd : GaData) (venues : List Venue) (eid : EventId)
    (d : MutDecision) : Option Slot :=
  mutAux gd venues eid d 0 0 d.iterBudget

/-- `mutate`: copy the chromosome, then for each pending event that the rate
coin selects, overwrite its gene with a fresh random slot (possibly `None`). -/
def mutate (chrom : Chromosome) (gd : GaData) (dec : EventId → MutDecision) :
    Chromosome :=
  let venues := gd.venues.map Prod.snd
  if venues.isEmpty then chrom
  else
    (pendingIdList gd).foldl
      (fun mc eid =>
        if (dec eid).mutate then dictSet mc eid (mutNewSlot gd venues eid (dec eid))
        else mc) chrom

theorem mem_dictKeys_dictSet {α β : Type} [DecidableEq α] (d : List (α × β))
    (k k' : α) (v : β) :
    k' ∈ dictKeys (dictSet d k v) ↔ k' ∈ dictKeys d ∨ k' = k := by
  induction d with
  | nil =>
    simp [dictSet, dictKeys]
    try tauto
  | cons p rest ih =>
    rcases p with ⟨pk, pv⟩
    simp only [dictSet]
    by_cases h : pk = k
    · subst h
      simp [dictKeys]
      tauto
    · simp only [if_neg h, dictKeys, List.map_cons, List.mem_cons] at ih ⊢
      rw [ih]
      tauto

theorem keys_foldl_dictSet_events (g : Event → Option Slot) (events : List Event) :
    ∀ (d0 : Chromosome) (k : EventId),
      k ∈ dictKeys (events.foldl (fun c ev => dictSet c ev.id (g ev)) d0) ↔
        k ∈ dictKeys d0 ∨ k ∈ events.map (fun e => e.id) := by
  induction events with
  | nil => intro d0 k; simp
  | cons ev rest ih =>
    intro d0 k
    simp only [List.foldl_cons, List.map_cons, List.mem_cons]
    rw [ih, mem_dictKeys_dictSet]
    tauto

theorem keys_crossover_fold (p1 p2 : Chromosome) (dec : CrossDecision)
    (events : List Event) :
    ∀ (acc : Chromosome × Chromosome) (k : EventId),
      (k ∈ dictKeys (events.foldl (crossStep dec p1 p2) acc).1 ↔
        k ∈ dictKeys acc.1 ∨ k ∈ events.map (fun e => e.id)) ∧
      (k ∈ dictKeys (events.foldl (crossStep dec p1 p2) acc).2 ↔
        k ∈ dictKeys acc.2 ∨ k ∈ events.map (fun e => e.id)) := by
  induction events with
  | nil => intro acc k; simp
  | cons ev rest ih =>
    intro acc k
    simp only [List.foldl_cons, List.map_cons, List.mem_cons]
    constructor
    · rw [(ih _ k).1]
      show k ∈ dictKeys (dictSet acc.1 ev.id _) ∨ _ ↔ _
      rw [mem_dictKeys_dictSet]
      tauto
    · rw [(ih _ k).2]
      show k ∈ dictKeys (dictSet acc.2 ev.id _) ∨ _ ↔ _
      rw [mem_dictKeys_dictSet]
      tauto

theorem keys_mutate_fold (gd : GaData) (venues : List Venue)
    (dec : EventId → MutDecision) (target : List EventId) :
    ∀ (ids : List EventId), (∀ i ∈ ids, i ∈ target) →
      ∀ (mc : Chromosome), (∀ k, k ∈ dictKeys mc ↔ k ∈ target) →
        ∀ k,
          k ∈ dictKeys
            (ids.foldl
              (fun mc eid =>
                if (dec eid).mutate then
                  dictSet mc eid (mutNewSlot gd venues eid (dec eid))
                else mc) mc) ↔ k ∈ target := by
  intro ids
  induction ids with
  | nil => intro _ mc hmc k; simpa using hmc k
  | cons i rest ih =>
    intro hsub mc hmc k
    simp only [List.foldl_cons]
    by_cases hm : (dec i).mutate = true
    · rw [if_pos hm]
      refine ih (fun j hj => hsub j (List.mem_cons_of_mem i hj)) _ ?_ k
      intro k'
      rw [mem_dictKeys_dictSet, hmc k']
      constructor
      · rintro (h | h)
        · exact h
        · rw [h]
          exact hsub i (List.mem_cons_self i rest)
      · exact Or.inl
    · rw [if_neg hm]
      exact ih (fun j hj => hsub j (List.mem_cons_of_mem i hj)) mc hmc k

/-- C4: chromosomes produced by the Initializer always carry exactly the
pending-event id key set; Crossover and Mutation preserve that invariant
(each key is of type `Option Slot`: `None` or a venue/start/end triple by
construction). -/
theorem C4_chromosome_keys :
    ∀ (gd : GaData),
      (∀ (size : Nat) (orc : Nat → EventId → InitDecision) (c : Chromosome),
        c ∈ initialize_population size orc gd →
        ∀ k, k ∈ dictKeys c ↔ k ∈ pendingIdList gd) ∧
      (∀ (dec : CrossDecision) (p1 p2 : Chromosome),
        (∀ k, k ∈ dictKeys p1 ↔ k ∈ pendingIdList gd) →
        (∀ k, k ∈ dictKeys p2 ↔ k ∈ pendingIdList gd) →
        (∀ k, k ∈ dictKeys (crossover dec p1 p2 gd).1 ↔ k ∈ pendingIdList gd) ∧
        (∀ k, k ∈ dictKeys (crossover dec p1 p2 gd).2 ↔ k ∈ pendingIdList gd)) ∧
      (∀ (dec : EventId → MutDecision) (c : Chromosome),
        (∀ k, k ∈ dictKeys c ↔ k ∈ pendingIdList gd) →
        ∀ k, k ∈ dictKeys (mutate c gd dec) ↔ k ∈ pendingIdList gd) := by
  intro gd
  refine ⟨?_, ?_, ?_⟩
  · intro size orc c hc k
    simp only [initialize_population] at hc
    by_cases hv : (gd.venues.map Prod.snd).isEmpty
    · rw [if_pos hv] at hc
      simp at hc
    · rw [if_neg hv] at hc
      by_cases hp : gd.pending_events.isEmpty
      · rw [if_pos hp] at hc
        have hc' : c = [] := List.eq_of_mem_replicate hc
        subst hc'
        have : gd.pending_events = [] := List.isEmpty_iff.mp hp
        simp [dictKeys, pendingIdList, this]
      · rw [if_neg hp] at hc
        obtain ⟨i, _, rfl⟩ := List.mem_map.mp hc
        rw [keys_foldl_dictSet_events
          (fun ev => initGene gd (gd.venues.map Prod.snd) ev (orc i ev.id))
          gd.pending_events [] k]
        simp [pendingIdList, dictKeys]
  · intro dec p1 p2 h1 h2
    by_cases hdc : dec.doCross = true
    · have hif : ¬ ¬ dec.doCross = true := by simp [hdc]
      constructor
      · intro k
        simp only [crossover, if_neg hif]
        rw [(keys_crossover_fold p1 p2 dec gd.pending_events ([], []) k).1]
        simp [pendingIdList, dictKeys]
      · intro k
        simp only [crossover, if_neg hif]
        rw [(keys_crossover_fold p1 p2 dec gd.pending_events ([], []) k).2]
        simp [pendingIdList, dictKeys]
    · have hdc' : ¬ dec.doCross = true := hdc
      constructor
      · intro k
        simp only [crossover, if_pos hdc']
        exact h1 k
      · intro k
        simp only [crossover, if_pos hdc']
        exact h2 k
  · intro dec c hc k
    simp only [mutate]
    by_cases hv : (gd.venues.map Prod.snd).isEmpty
    · rw [if_pos hv]
      exact hc k
    · rw [if_neg hv]
      exact keys_mutate_fold gd (gd.venues.map Prod.snd) dec (pendingIdList gd)
        (pendingIdList gd) (fun i hi => hi) c hc k

/-- An init oracle that never attempts to schedule. -/
def w4InitDec : InitDecision :=
  { trySchedule := false, venuePick := 0, useReq := false,
    dayDraws := fun _ => 0, hourDraw := 0, minutePick := 0 }

/-- A mutation oracle that never mutates. -/
def w4MutDec : MutDecision :=
  { mutate := false, venuePick := fun _ => 0, dayDraw := fun _ => 0,
    hourDraw := fun _ => 0, minutePick := fun _ => 0, iterBudget := 0 }

/-- Witness for C4: the three clauses instantiated on the concrete one-event
context `c2Gd` with concrete oracles. -/
theorem C4_chromosome_keys_witness :
    ("e1" ∈ dictKeys [("e1", (none : Option Slot))] ↔ "e1" ∈ pendingIdList c2Gd) ∧
    ("e1" ∈ dictKeys
        (crossover ⟨false, fun _ => true⟩ [("e1", none)] [("e1", none)] c2Gd).1 ↔
      "e1" ∈ pendingIdList c2Gd) ∧
    ("e1" ∈ dictKeys (mutate [("e1", none)] c2Gd (fun _ => w4MutDec)) ↔
      "e1" ∈ pendingIdList c2Gd) :=
  ⟨(C4_chromosome_keys c2Gd).1 1 (fun _ _ => w4InitDec) [("e1", none)] (by decide) "e1",
   ((C4_chromosome_keys c2Gd).2.1 ⟨false, fun _ => true⟩ [("e1", none)] [("e1", none)]
      (fun _ => Iff.rfl) (fun _ => Iff.rfl)).1 "e1",
   (C4_chromosome_keys c2Gd).2.2 (fun _ => w4MutDec) [("e1", none)]
      (fun _ => Iff.rfl) "e1"⟩

/-! ## Calendar Constraint Compiler (`process_weekly_constraints`)

The date-string parsing is the `parse` parameter (the source calls
`parse_date_string` with the academic-year bounds split out of
`"2024-2025"`; the parsing itself is embedded separately below), returning
civil dates as day numbers. -/

/-- One named calendar entry (`{"event": …, "date": …}`). -/
structure CalEntry where
  event : Option String
  date : String
deriving DecidableEq, Repr

/-- One raw standard-blockage time range; `none` stands for a missing or
unparseable `time.fromisoformat` field (skipped with a warning). -/
structure RawTimeRange where
  start_time : Option Int
  end_time : Option Int
  day : Option String
deriving DecidableEq, Repr

/-- The calendar configuration file contents the compiler reads
(`unavailable_dates` categories flattened into fields). -/
structure CalConfig where
  hectic_periods : List CalEntry
  national_holidays : List CalEntry
  school_holidays_breaks : List CalEntry
  examination_periods : List CalEntry
  standard_venue_blockages : List (String × List RawTimeRange)
deriving DecidableEq, Repr

/-- Step 2: the target week `[tS, tE)` overlaps some hectic period's span. -/
def hecticOf (parse : String → List Int) (tS tE : Int) (cfg : CalConfig) : Bool :=
  cfg.hectic_periods.any (fun p =>
    let ds := parse p.date
    !ds.isEmpty &&
    (match ds.min?, ds.max? with
     | some mn, some mx => decide (tS ≤ mx) && decide (tE > mn)
     | _, _ => false))

/-- The three blockage categories with their title-cased fallback reasons. -/
def blockageCats (cfg : CalConfig) : List (List CalEntry × String) :=
  [(cfg.national_holidays, "National Holidays"),
   (cfg.school_holidays_breaks, "School Holidays Breaks"),
   (cfg.examination_periods, "Examination Periods")]

/-- Step 3 emissions: one full-day slot per in-week category date, tagged
with the entry's event name or the category fallback. -/
def step3Slots (parse : String → List Int) (tS tE : Int) (cfg : CalConfig) :
    List GeneralSlot :=
  (blockageCats cfg).flatMap (fun pr =>
    pr.1.flatMap (fun entry =>
      (parse entry.date).filterMap (fun d =>
        if tS ≤ d ∧ d < tE then
          some { start := combineDT d 0, stop := combineDT (d + 1) 0,
                 reason := entry.event.getD pr.2 }
        else none)))

/-- Step 3's `all_blocked_dates` set (as a list; only membership is used). -/
def step3Dates (parse : String → List Int) (tS tE : Int) (cfg : CalConfig) :
    List Int :=
  (blockageCats cfg).flatMap (fun pr =>
    pr.1.flatMap (fun entry =>
      (parse entry.date).filter (fun d => decide (tS ≤ d ∧ d < tE))))

/-- Step 4 inputs: `min(parsed)` of each examination-period entry that
parses to a nonempty date list. -/
def examStarts (parse : String → List Int) (cfg : CalConfig) : List Int :=
  cfg.examination_periods.filterMap (fun entry => (parse entry.date).min?)

/-- Step 4 emissions: for each distinct exam start (sorted), the in-week,
not-already-blocked days of the 7-day window before it. -/
def step4Slots (tS tE : Int) (blocked : List Int) (starts : List Int) :
    List GeneralSlot :=
  (sortedDedupInt starts).flatMap (fun es =>
    (intRange (es - 7) es).filterMap (fun d =>
      if (tS ≤ d ∧ d < tE) ∧ d ∉ blocked then
        some { start := combineDT d 0, stop := combineDT (d + 1) 0,
               reason := "Pre-Exam Week Blockage" }
      else none))

/-- Step 5 emissions: per week day, a full-day Sunday blockage (when not
already blocked by step 3) and always the nightly curfew. -/
def step5Slots (tS tE : Int) (blocked : List Int) : List GeneralSlot :=
  (intRange tS tE).flatMap (fun d =>
    (if weekdayOf d = 6 ∧ d ∉ blocked then
      [{ start := combineDT d 0, stop := combineDT (d + 1) 0,
         reason := "Sunday Blockage" }]
    else []) ++
    [{ start := combineDT d 1320, stop := combineDT (d + 1) 360,
       reason := "Night Curfew" }])

/-- Step 6: the standard venue-blockage table (valid ranges only; keys with
no valid range are dropped). -/
def compileBlockages (cfg : CalConfig) : List (String × List BlockRule) :=
  cfg.standard_venue_blockages.foldl
    (fun acc kv =>
      let parsed := kv.2.filterMap (fun tr =>
        match tr.start_time, tr.end_time with
        | some st, some et => some { start := st, stop := et, day := tr.day }
        | _, _ => none)
      if parsed.isEmpty then acc else acc ++ [(kv.1, parsed)]) []

/-- `process_weekly_constraints`: steps 2-7 of the compiler (step 1, the
date parsing, is the `parse` parameter; step 6 runs only off hectic weeks;
step 7 sorts the general slots by start). -/
def process_weekly_constraints (tS tE : Int) (cfg : CalConfig)
    (parse : String → List Int) : WeekConstraints :=
  let is_hectic := hecticOf parse tS tE cfg
  let blocked := step3Dates parse tS tE cfg
  let slots := step3Slots parse tS tE cfg ++
    step4Slots tS tE blocked (examStarts parse cfg) ++
    step5Slots tS tE blocked
  { unavailable_general_slots :=
      sortByLe (fun a b => decide (a.start ≤ b.start)) slots,
    venue_specific_rules :=
      { is_hectic_week := is_hectic,
        blockages := if is_hectic then [] else compileBlockages cfg } }

/-- C5: on a week the compiler marks hectic, the venue-blockage table is
left empty, and Evaluator check 3 never counts a violation under the hectic
flag, whatever the venue, slot or rule table. -/
theorem C5_hectic_suppresses_blockages :
    ∀ (tS tE : Int) (cfg : CalConfig) (parse : String → List Int),
      ((process_weekly_constraints tS tE cfg parse).venue_specific_rules.is_hectic_week = true →
        (process_weekly_constraints tS tE cfg parse).venue_specific_rules.blockages = []) ∧
      (∀ (venues : List (VenueId × Venue)) (blockages : List (String × List BlockRule))
          (vid : VenueId) (s e : Int),
        fitCheck3 true venues blockages vid s e = 0) := by
  intro tS tE cfg parse
  constructor
  · intro h
    simp only [process_weekly_constraints] at h ⊢
    rw [h]
    simp
  · intro venues blockages vid s e
    rfl

/-- Concrete hectic calendar for the C5 witness: one hectic period on day 3
of the week `[0, 7)`. -/
def w5Cfg : CalConfig :=
  { hectic_periods := [{ event := some "Fiesta Week", date := "H" }],
    national_holidays := [], school_holidays_breaks := [],
    examination_periods := [],
    standard_venue_blockages :=
      [("Classroom_weekday", [{ start_time := some 420, end_time := some 720,
                                day := none }])] }

def w5Parse : String → List Int := fun s => if s = "H" then [3] else []

/-- Witness for C5: the week `[0, 7)` is computed hectic and the compiled
blockage table is empty despite a nonempty standard table. -/
theorem C5_hectic_suppresses_blockages_witness :
    (process_weekly_constraints 0 7 w5Cfg w5Parse).venue_specific_rules.blockages = [] :=
  (C5_hectic_suppresses_blockages 0 7 w5Cfg w5Parse).1 (by decide)

/-- C8: for every examination-period entry whose date string parses, and
every day of the 7-day window before the period's first day that lies in the
target week and is not blocked by a step-3 holiday/break/exam date, the
compiled constraints contain a full-day interval tagged
"Pre-Exam Week Blockage". -/
theorem C8_pre_exam_blockage :
    ∀ (parse : String → List Int) (tS tE : Int) (cfg : CalConfig)
      (entry : CalEntry) (es d : Int),
      entry ∈ cfg.examination_periods →
      (parse entry.date).min? = some es →
      es - 7 ≤ d → d < es → tS ≤ d → d < tE →
      d ∉ step3Dates parse tS tE cfg →
      { start := combineDT d 0, stop := combineDT (d + 1) 0,
        reason := "Pre-Exam Week Blockage" } ∈
        (process_weekly_constraints tS tE cfg parse).unavailable_general_slots := by
  intro parse tS tE cfg entry es d hentry hmin h7 hlt htS htE hnb
  simp only [process_weekly_constraints]
  rw [mem_sortByLe]
  apply List.mem_append_left
  apply List.mem_append_right
  simp only [step4Slots]
  rw [List.mem_flatMap]
  refine ⟨es, ?_, ?_⟩
  · rw [mem_sortedDedupInt]
    simp only [examStarts]
    rw [List.mem_filterMap]
    exact ⟨entry, hentry, hmin⟩
  · rw [List.mem_filterMap]
    refine ⟨d, ?_, ?_⟩
    · rw [mem_intRange]
      omega
    · rw [if_pos ⟨⟨htS, htE⟩, hnb⟩]

/-- Concrete calendar for the C8 witness: one exam period starting on day 10
and the target week `[4, 10)`. -/
def w8Cfg : CalConfig :=
  { hectic_periods := [], national_holidays := [], school_holidays_breaks := [],
    examination_periods := [{ event := some "Final Exams", date := "EX" }],
    standard_venue_blockages := [] }

def w8Parse : String → List Int := fun s => if s = "EX" then [10, 11, 12] else []

/-- Witness for C8: day 4 (six days before the exam start 10, inside the
week `[4, 10)`, not otherwise blocked) carries the pre-exam interval. -/
theorem C8_pre_exam_blockage_witness :
    { start := combineDT 4 0, stop := combineDT 5 0,
      reason := "Pre-Exam Week Blockage" } ∈
      (process_weekly_constraints 4 10 w8Cfg w8Parse).unavailable_general_slots :=
  C8_pre_exam_blockage w8Parse 4 10 w8Cfg
    { event := some "Final Exams", date := "EX" } 10 4
    (by decide) (by decide) (by decide) (by decide) (by decide) (by decide)
    (by decide)

/-! ## Post-Mortem Analyzer (`_run_post_mortem_analysis`) -/

/-- `times_to_check`: every 30 minutes from 06:00 through 21:30. -/
def pmTimes : List Int :=
  (List.range 16).flatMap (fun h => [(6 + (h : Int)) * 60, (6 + (h : Int)) * 60 + 30])

/-- Lexicographic code-point order on strings (Python `sorted`). -/
def listLexLe : List Char → List Char → Bool
  | [], _ => true
  | _ :: _, [] => false
  | a :: as, b :: bs => if a < b then true else if b < a then false else listLexLe as bs

def strLeB (a b : String) : Bool := listLexLe a.toList b.toList

/-- `r.split(':')[0] if ':' in r else r`. -/
def reasonType (r : String) : String := ⟨r.toList.takeWhile (fun c => c ≠ ':')⟩

/-- All (day × venue × time) sampled reasons for one event, skipping slots
whose end date reaches the exclusive week end. -/
def collectReasons (gd : GaData) (venues : List Venue) (ev : Event) : List String :=
  (intRange gd.target_start_date gd.target_end_date).flatMap (fun d =>
    venues.flatMap (fun v =>
      pmTimes.filterMap (fun t =>
        let st := combineDT d t
        let et := st + eventDuration ev
        if dayOf et ≥ gd.target_end_date then none
        else _check_slot_constraints_for_reason gd ev v.id st et)))

/-- The distinct reasons grouped by their category prefix, each group and
the group keys sorted, rendered as "- reason" lines. -/
def groupedLines (reasons : List String) : List String :=
  let keys := dedupKeepFirst (reasons.map reasonType)
  (sortByLe strLeB keys).flatMap (fun k =>
    (sortByLe strLeB (dedupKeepFirst
        (reasons.filter (fun r => reasonType r = k)))).map (fun r => "- " ++ r))

/-- One event's analysis lines. -/
def analyzeEvent (gd : GaData) (venues : List Venue) (ev : Event) : List String :=
  let reasons := dedupKeepFirst (collectReasons gd venues ev)
  if ¬ (gd.target_start_date < gd.target_end_date) then
    ["Could not attempt any checks (check date range/venue data)."]
  else if reasons.isEmpty then
    ["No constraint conflicts found in sampled check slots. Failure likely due to conflicts between events (Internal Conflicts) not resolved by GA."]
  else
    "Potential blocking constraints identified:" :: groupedLines reasons

/-- `_run_post_mortem_analysis`: per unscheduled id (ids with no pending
document are skipped), the analysis lines; with no venues every id gets the
skip notice. -/
def _run_post_mortem_analysis (ids : List EventId) (gd : GaData) :
    List (EventId × List String) :=
  if ids.isEmpty then []
  else
    let venues := gd.venues.map Prod.snd
    if venues.isEmpty then
      ids.map (fun i => (i, ["Post-mortem skipped: No venues available."]))
    else
      ids.foldl
        (fun acc eid =>
          match alookup (pendingDict gd) eid with
          | none => acc
          | some ev => acc ++ [(eid, analyzeEvent gd venues ev)]) []

/-! ## Evolution Orchestrator (`optimize_weekly_schedule`) -/

/-- A proposed schedule row. -/
structure ScheduleEntry where
  event_id : EventId
  venue_id : VenueId
  organization_id : String
  scheduled_start_time : Int
  scheduled_end_time : Int
  is_optimized : Bool
deriving DecidableEq, Repr

/-- `report_data` (datetime formatting abstracted to `toString` of the
minute timestamps). -/
structure Report where
  input_event_count : Nat
  pop : Nat
  gens : Nat
  mut_rate : Rat
  cross_rate : Rat
  final_fitness : Option Rat
  final_violations : Option Nat
  is_hectic_week : Bool
  active_general_constraints : List String
  active_venue_blockages : List (String × List String)
  unscheduled_event_analysis : List (EventId × List String)
  summary : String
deriving DecidableEq, Repr

/-- The `(schedule_entries, unscheduled_ids, report)` result triple
(event ids as strings; the source returns the raw ObjectIds). -/
structure OptResult where
  schedule : List ScheduleEntry
  unscheduled : List EventId
  report : Report
deriving DecidableEq, Repr

/-- The report as initialised at the top of `optimize_weekly_schedule`. -/
def initialReport (pop gens : Nat) (mr cr : Rat) : Report :=
  { input_event_count := 0, pop := pop, gens := gens, mut_rate := mr,
    cross_rate := cr,
    final_fitness := none, final_violations := none, is_hectic_week := false,
    active_general_constraints := [], active_venue_blockages := [],
    unscheduled_event_analysis := [],
    summary := "Optimization did not complete fully." }

/-- "Reason: start - end" formatting of an active general constraint. -/
def fmtConstraint (c : GeneralSlot) : String :=
  c.reason ++ ": " ++ toString c.start ++ " - " ++ toString c.stop

/-- The report fields filled in right after constraints and data are
fetched (lines filtering, sorting and formatting the active constraints and
the venue blockage table). -/
def populatedReport (base : Report) (gd : GaData) (tS tE : Int) : Report :=
  let start_dt := combineDT tS 0
  let end_dt := combineDT tE 0
  let rel := gd.week_constraints.unavailable_general_slots.filter
    (fun c => decide (c.start < end_dt) && decide (c.stop > start_dt))
  let rel := sortByLe (fun a b => decide (a.start ≤ b.start)) rel
  { base with
    input_event_count := gd.pending_events.length,
    is_hectic_week := gd.week_constraints.venue_specific_rules.is_hectic_week,
    active_general_constraints := rel.map fmtConstraint,
    active_venue_blockages :=
      if gd.week_constraints.venue_specific_rules.is_hectic_week then []
      else gd.week_constraints.venue_specific_rules.blockages.map
        (fun kv => (kv.1, kv.2.map (fun b =>
          fmtHM b.start ++ "-" ++ fmtHM b.stop ++
            (match b.day with
             | some dd => " (" ++ dd ++ ")"
             | none => "")))) }

/-- Lines 1322-1390 of the source: the Done phase.  `none` (no best-ever
chromosome) reports failure and routes every pending event to the
Post-Mortem; `some` re-verifies the fitness defensively, discarding the
entire proposal when any hard violation remains, otherwise splitting the
chromosome into schedule entries and the unscheduled complement. -/
def process_best_solution (best : Option Chromosome) (gd : GaData) (w : Weights)
    (base : Report) : OptResult :=
  match best with
  | none =>
    { schedule := [],
      unscheduled := pendingIdList gd,
      report := { base with
        summary := "GA could not find any potentially valid schedule configuration.",
        unscheduled_event_analysis :=
          _run_post_mortem_analysis (pendingIdList gd) gd } }
  | some bc =>
    let fv := calculate_fitness bc gd w
    let base := { base with final_fitness := some fv.1, final_violations := some fv.2 }
    if fv.2 > 0 then
      { schedule := [],
        unscheduled := pendingIdList gd,
        report := { base with
          unscheduled_event_analysis :=
            _run_post_mortem_analysis (pendingIdList gd) gd,
          summary := "Best solution found violated " ++ toString fv.2 ++
            " hard constraints. Treating all events as unscheduled." } }
    else
      let entries := bc.filterMap (fun kv =>
        match kv.2 with
        | none => none
        | some sl =>
          match gd.pending_events.find? (fun ev => ev.id = kv.1) with
          | none => none
          | some ev =>
            some { event_id := ev.id, venue_id := sl.venue,
                   organization_id := ev.organization_id,
                   scheduled_start_time := sl.start,
                   scheduled_end_time := sl.stop, is_optimized := true })
      let scheduled_ids := entries.map (fun en => en.event_id)
      let unscheduled := (pendingIdList gd).filter (fun i => !(scheduled_ids.contains i))
      if ¬ unscheduled.isEmpty then
        { schedule := entries, unscheduled := unscheduled,
          report := { base with
            unscheduled_event_analysis := _run_post_mortem_analysis unscheduled gd,
            summary := "GA found a valid schedule for " ++ toString entries.length ++
              " events, but could not schedule " ++ toString unscheduled.length ++
              ". See analysis for details." } }
      else
        { schedule := entries, unscheduled := unscheduled,
          report := { base with
            summary := "GA successfully found a valid schedule for all " ++
              toString entries.length ++ " events." } }

/-- `optimize_weekly_schedule` with the I/O phases abstracted: `loadConfig`
is the outcome of reading the calendar JSON, `phase2` the outcome of
constraint compilation plus the database fetch (both `try`-wrapped in the
source).  The generational loop body is absent in the source — only a
placeholder comment stands between initialising `best_chromosome_overall =
None` and the Done phase — so the Done phase always receives `none`.  The
population-initialisation failure branch returns the pending ids where the
source returns the raw pending-event documents. -/
def optimize_weekly_schedule (loadConfig : Except String CalConfig)
    (phase2 : CalConfig → Except String GaData) (w : Weights) (tS tE : Int)
    (population_size max_generations : Nat) (mutation_rate crossover_rate : Rat)
    (orc : Nat → EventId → InitDecision) : OptResult :=
  let report0 := initialReport population_size max_generations mutation_rate crossover_rate
  match loadConfig with
  | .error e =>
    { schedule := [], unscheduled := [],
      report := { report0 with summary := "Error loading config: " ++ e } }
  | .ok cfg =>
    match phase2 cfg with
    | .error e =>
      { schedule := [], unscheduled := [],
        report := { report0 with
          summary := "Error fetching data/processing constraints: " ++ e } }
    | .ok gd =>
      let report1 := populatedReport report0 gd tS tE
      if gd.pending_events.isEmpty then
        { schedule := [], unscheduled := [],
          report := { report1 with
                      summary := "No pending events to schedule.",
                      final_fitness := some 0, final_violations := some 0 } }
      else
        let population := initialize_population population_size orc gd
        if population.isEmpty then
          { schedule := [], unscheduled := pendingIdList gd,
            report := { report1 with summary := "Failed to initialize GA population." } }
        else
          process_best_solution none gd w report1

/-- C9: a config-load failure makes `optimize_weekly_schedule` return the
empty schedule, an empty unscheduled list, and a report whose summary
carries the load error — it is a normal return value of the (total)
function, never a propagated exception. -/
theorem C9_config_load_failure :
    ∀ (e : String) (phase2 : CalConfig → Except String GaData) (w : Weights)
      (tS tE : Int) (ps mg : Nat) (mr cr : Rat)
      (orc : Nat → EventId → InitDecision),
      (optimize_weekly_schedule (.error e) phase2 w tS tE ps mg mr cr orc).schedule = [] ∧
      (optimize_weekly_schedule (.error e) phase2 w tS tE ps mg mr cr orc).unscheduled = [] ∧
      (optimize_weekly_schedule (.error e) phase2 w tS tE ps mg mr cr orc).report.summary =
        "Error loading config: " ++ e := by
  intro e phase2 w tS tE ps mg mr cr orc
  exact ⟨rfl, rfl, rfl⟩

/-- C1: on any run whose config and data phases succeed with at least one
pending event and a successfully initialised population, the orchestrator —
whose generational loop body is absent, leaving `best_chromosome_overall`
at `None` — returns the empty schedule, reports every pending event as
unscheduled, and routes all of them to the Post-Mortem Analyzer. -/
theorem C1_absent_loop_all_unscheduled :
    ∀ (cfg : CalConfig) (phase2 : CalConfig → Except String GaData) (w : Weights)
      (tS tE : Int) (ps mg : Nat) (mr cr : Rat)
      (orc : Nat → EventId → InitDecision) (gd : GaData),
      phase2 cfg = .ok gd →
      gd.pending_events ≠ [] →
      initialize_population ps orc gd ≠ [] →
      (optimize_weekly_schedule (.ok cfg) phase2 w tS tE ps mg mr cr orc).schedule = [] ∧
      (optimize_weekly_schedule (.ok cfg) phase2 w tS tE ps mg mr cr orc).unscheduled =
        pendingIdList gd ∧
      (optimize_weekly_schedule (.ok cfg) phase2 w tS tE ps mg mr cr
          orc).report.unscheduled_event_analysis =
        _run_post_mortem_analysis (pendingIdList gd) gd ∧
      (optimize_weekly_schedule (.ok cfg) phase2 w tS tE ps mg mr cr orc).report.summary =
        "GA could not find any potentially valid schedule configuration." := by
  intro cfg phase2 w tS tE ps mg mr cr orc gd hph hpend hinit
  have hpe : gd.pending_events.isEmpty = false := by
    cases hgd : gd.pending_events with
    | nil => exact absurd hgd hpend
    | cons a l => simp [hgd]
  have hpop : (initialize_population ps orc gd).isEmpty = false := by
    cases hp : initialize_population ps orc gd with
    | nil => exact absurd hp hinit
    | cons a l => simp [hp]
  simp only [optimize_weekly_schedule, hph, hpe, hpop, Bool.false_eq_true, if_false]
  exact ⟨rfl, rfl, rfl, rfl⟩

/-- Witness for C1: on the concrete one-event context `c2Gd` with a size-1
population of never-scheduling oracles, the whole pending list comes back
unscheduled. -/
theorem C1_absent_loop_all_unscheduled_witness :
    (optimize_weekly_schedule (.ok w8Cfg) (fun _ => .ok c2Gd)
        ⟨10, 50, 20, 30, 100, -10, 10000⟩ 0 7 1 50 (15 / 100) (8 / 10)
        (fun _ _ => w4InitDec)).unscheduled = pendingIdList c2Gd :=
  (C1_absent_loop_all_unscheduled w8Cfg (fun _ => .ok c2Gd)
      ⟨10, 50, 20, 30, 100, -10, 10000⟩ 0 7 1 50 (15 / 100) (8 / 10)
      (fun _ _ => w4InitDec) c2Gd rfl (by decide) (by decide)).2.1

/-- C3: whenever the defensive recomputation of the best-ever chromosome's
fitness still reports a positive hard-violation count, the Done phase
discards the whole proposal: no schedule entries, every pending event
unscheduled, and the Post-Mortem Analyzer run on all of them. -/
theorem C3_verification_failure_discards_all :
    ∀ (gd : GaData) (w : Weights) (base : Report) (bc : Chromosome),
      0 < (calculate_fitness bc gd w).2 →
      (process_best_solution (some bc) gd w base).schedule = [] ∧
      (process_best_solution (some bc) gd w base).unscheduled = pendingIdList gd ∧
      (process_best_solution (some bc) gd w base).report.unscheduled_event_analysis =
        _run_post_mortem_analysis (pendingIdList gd) gd := by
  intro gd w base bc h
  simp only [process_best_solution]
  rw [if_pos h]
  exact ⟨rfl, rfl, rfl⟩

/-- Witness for C3: the Sunday chromosome on `c2Gd` re-verifies with two
hard violations, and the Done phase reports the full pending list as
unscheduled. -/
theorem C3_verification_failure_discards_all_witness :
    (process_best_solution (some [("e1", some ⟨"v1", 4920, 5010⟩)]) c2Gd
        ⟨10, 50, 20, 30, 100, -10, 10000⟩
        (initialReport 50 50 (15 / 100) (8 / 10))).unscheduled =
      pendingIdList c2Gd :=
  (C3_verification_failure_discards_all c2Gd ⟨10, 50, 20, 30, 100, -10, 10000⟩
      (initialReport 50 50 (15 / 100) (8 / 10)) [("e1", some ⟨"v1", 4920, 5010⟩)]
      (by decide)).2.1

/-! ## Date-string parsing (`parse_date_string`)

Python `datetime.date` values are year/month/day triples with Gregorian
arithmetic; `dateutil.parser.parse` is an oracle that may raise
(`Except.error` stands for the raised `ValueError`); the regular
expressions are transcribed as character-list matchers.  The `while` loops
carry a structural fuel large enough for every run the source terminates
on (a same-month loop takes at most 32 steps; the cross-month loop is
given 1000 days, far beyond the comment's "≤ 6 months" design range). -/

structure PDate where
  year : Int
  month : Int
  day : Int
deriving DecidableEq, Repr

/-- Python date ordering (lexicographic on year, month, day). -/
def pdLtB (a b : PDate) : Bool :=
  decide (a.year < b.year ∨ (a.year = b.year ∧
    (a.month < b.month ∨ (a.month = b.month ∧ a.day < b.day))))

def pdLeB (a b : PDate) : Bool := pdLtB a b || decide (a = b)

def isLeapYear (y : Int) : Bool :=
  decide ((y.emod 4 = 0 ∧ y.emod 100 ≠ 0) ∨ y.emod 400 = 0)

def daysInMonth (y m : Int) : Int :=
  if m = 2 then (if isLeapYear y then 29 else 28)
  else if m = 4 ∨ m = 6 ∨ m = 9 ∨ m = 11 then 30
  else 31

/-- `current_date += timedelta(days=1)`. -/
def PDate.next (d : PDate) : PDate :=
  if d.day < daysInMonth d.year d.month then ⟨d.year, d.month, d.day + 1⟩
  else if d.month < 12 then ⟨d.year, d.month + 1, 1⟩
  else ⟨d.year + 1, 1, 1⟩

/-- `dt.replace(year=y)`: raises `ValueError` when the day does not exist
in the target year (Feb 29). -/
def replaceYear (d : PDate) (y : Int) : Except String PDate :=
  if 1 ≤ d.day ∧ d.day ≤ daysInMonth y d.month then .ok ⟨y, d.month, d.day⟩
  else .error "day is out of range for month"

/-- Python `str.strip()`. -/
def pyTrim (s : String) : String :=
  ⟨((s.toList.dropWhile Char.isWhitespace).reverse.dropWhile Char.isWhitespace).reverse⟩

/-- Digits of a captured group as an integer. -/
def digitsToInt (s : String) : Int :=
  s.toList.foldl (fun n c => n * 10 + ((c.toNat : Int) - ('0'.toNat : Int))) 0

/-- `[A-Za-z]{3,}` at the front; returns the capture and the rest. -/
def matchAlpha3 (l : List Char) : Option (String × List Char) :=
  let a := l.takeWhile (fun c => c.isAlpha)
  if a.length ≥ 3 then some (⟨a⟩, l.dropWhile (fun c => c.isAlpha)) else none

/-- `\s+` at the front; returns the rest. -/
def matchWs1 (l : List Char) : Option (List Char) :=
  if (l.takeWhile Char.isWhitespace).length ≥ 1 then
    some (l.dropWhile Char.isWhitespace)
  else none

/-- `\d{1,2}` at the front (greedy, at most two digits). -/
def matchDigits12 (l : List Char) : Option (String × List Char) :=
  let d := (l.takeWhile Char.isDigit).take 2
  if d.length ≥ 1 then some (⟨d⟩, l.drop d.length) else none

/-- `re.fullmatch(r"[A-Za-z]{3,}\s+\d{1,2}", …)`. -/
def isMonthDay (l : List Char) : Bool :=
  match matchAlpha3 l with
  | none => false
  | some (_, r1) =>
    match matchWs1 r1 with
    | none => false
    | some r2 =>
      match matchDigits12 r2 with
      | none => false
      | some (_, r3) => r3.isEmpty

/-- `re.fullmatch(r"([A-Za-z]{3,}\s+\d{1,2})\s+-\s+(\d{1,2})", …)`:
the month-day capture and the numeric end day. -/
def matchDayRange (l : List Char) : Option (String × Int) :=
  match matchAlpha3 l with
  | none => none
  | some (_, r1) =>
    match matchWs1 r1 with
    | none => none
    | some r2 =>
      match matchDigits12 r2 with
      | none => none
      | some (_, r3) =>
        let g1 : String := ⟨l.take (l.length - r3.length)⟩
        match matchWs1 r3 with
        | none => none
        | some r4 =>
          match r4 with
          | '-' :: r5 =>
            match matchWs1 r5 with
            | none => none
            | some r6 =>
              match matchDigits12 r6 with
              | none => none
              | some (d2, r7) => if r7.isEmpty then some (g1, digitsToInt d2) else none
          | _ => none

/-- `re.fullmatch(r"([A-Za-z]{3,}\s+\d{1,2})\s+-\s+([A-Za-z]{3,}\s+\d{1,2})", …)`. -/
def matchCrossRange (l : List Char) : Option (String × String) :=
  match matchAlpha3 l with
  | none => none
  | some (_, r1) =>
    match matchWs1 r1 with
    | none => none
    | some r2 =>
      match matchDigits12 r2 with
      | none => none
      | some (_, r3) =>
        let g1 : String := ⟨l.take (l.length - r3.length)⟩
        match matchWs1 r3 with
        | none => none
        | some r4 =>
          match r4 with
          | '-' :: r5 =>
            match matchWs1 r5 with
            | none => none
            | some r6 => if isMonthDay r6 then some (g1, ⟨r6⟩) else none
          | _ => none

/-- `re.match(r"([A-Za-z]{3,})\s+(\d{1,2})", part)` (prefix match). -/
def partMonthDay (l : List Char) : Option (String × String) :=
  match matchAlpha3 l with
  | none => none
  | some (mon, r1) =>
    match matchWs1 r1 with
    | none => none
    | some r2 =>
      match matchDigits12 r2 with
      | none => none
      | some (d, _) => some (mon, d)

/-- `re.match(r"(\d{1,2})\s*-\s*(\d{1,2})", part)` (prefix match). -/
def partRange (l : List Char) : Option (Int × Int) :=
  match matchDigits12 l with
  | none => none
  | some (d1, r1) =>
    match r1.dropWhile Char.isWhitespace with
    | '-' :: r2 =>
      match matchDigits12 (r2.dropWhile Char.isWhitespace) with
      | none => none
      | some (d2, _) => some (digitsToInt d1, digitsToInt d2)
    | _ => none

/-- `re.fullmatch(r"\d{1,2}", part)`. -/
def isDigits12 (l : List Char) : Bool :=
  match matchDigits12 l with
  | none => false
  | some (_, r) => r.isEmpty

/-- Split on a separator character (Python `str.split(sep)`). -/
def splitOnCharAux (c : Char) (cur : List Char) : List Char → List (List Char)
  | [] => [cur.reverse]
  | x :: xs =>
    if x = c then cur.reverse :: splitOnCharAux c [] xs
    else splitOnCharAux c (x :: cur) xs

def splitOnChar (c : Char) (l : List Char) : List (List Char) :=
  splitOnCharAux c [] l

/-- The branch-2 day loop (`while current_date.day <= end_day`, breaking
when the month or year changes). -/
def sameMonthLoop (start : PDate) (endDay : Int) : PDate → Nat → List PDate
  | _, 0 => []
  | cur, fuel + 1 =>
    if cur.day ≤ endDay then
      if cur.month ≠ start.month ∨ cur.year ≠ start.year then []
      else cur :: sameMonthLoop start endDay cur.next fuel
    else []

/-- The list-part range loop (breaks only when the month changes). -/
def monthOnlyLoop (ctxMonth endDay : Int) : PDate → Nat → List PDate
  | _, 0 => []
  | cur, fuel + 1 =>
    if cur.day ≤ endDay then
      if cur.month ≠ ctxMonth then []
      else cur :: monthOnlyLoop ctxMonth endDay cur.next fuel
    else []

/-- The branch-3 inclusive date loop (`while current_date <= end_dt`). -/
def crossLoop (edt : PDate) : PDate → Nat → List PDate
  | _, 0 => []
  | cur, fuel + 1 =>
    if pdLeB cur edt then cur :: crossLoop edt cur.next fuel else []

/-- The comma/ampersand list branch: thread the month context through the
parts, with each part's parse failures caught and skipped. -/
def processParts (du : String → Except String PDate) (getYear : Int → Int) :
    List (List Char) → String → List PDate → List PDate
  | [], _, acc => acc
  | part :: rest, curMonth, acc =>
    if part.isEmpty then processParts du getYear rest curMonth acc
    else
      match partMonthDay part with
      | some (mon, dayS) =>
        match (do
            let dt ← du (mon ++ " " ++ dayS)
            replaceYear dt (getYear dt.month) : Except String PDate) with
        | .ok d => processParts du getYear rest mon (acc ++ [d])
        | .error _ => processParts du getYear rest mon acc
      | none =>
        if part.contains '-' ∧ curMonth ≠ "" then
          match partRange part with
          | some (a, b) =>
            match (do
                let ctx ← du (curMonth ++ " " ++ toString a)
                let cdt ← replaceYear ctx (getYear ctx.month)
                pure (ctx, cdt) : Except String (PDate × PDate)) with
            | .ok (ctx, cdt) =>
              processParts du getYear rest curMonth
                (acc ++ monthOnlyLoop ctx.month b cdt 64)
            | .error _ => processParts du getYear rest curMonth acc
          | none => processParts du getYear rest curMonth acc
        else if isDigits12 part ∧ curMonth ≠ "" then
          match (do
              let dt ← du (curMonth ++ " " ++ (⟨part⟩ : String))
              replaceYear dt (getYear dt.month) : Except String PDate) with
          | .ok d => processParts du getYear rest curMonth (acc ++ [d])
          | .error _ => processParts du getYear rest curMonth acc
        else processParts du getYear rest curMonth acc

/-- The `try` body of `parse_date_string`: branch dispatch in source order;
an `Except.error` is a `ValueError` (or similar) escaping to the outer
handler. -/
def parse_date_string_impl (du : String → Except String PDate) (ds : String)
    (year_start year_end : Int) : Except String (List PDate) :=
  let getYear : Int → Int := fun m => if m < 7 then year_end else year_start
  let l := ds.toList
  if isMonthDay l then do
    let dt ← du ds
    let d ← replaceYear dt (getYear dt.month)
    pure [d]
  else
    match matchDayRange l with
    | some (startStr, endDay) => do
      let dt0 ← du startStr
      let sdt ← replaceYear dt0 (getYear dt0.month)
      if endDay < sdt.day then pure []
      else pure (sameMonthLoop sdt endDay sdt 64)
    | none =>
      match matchCrossRange l with
      | some (g1, g2) => do
        let s0 ← du g1
        let e0 ← du g2
        let sy := getYear s0.month
        let ey := getYear e0.month
        let sdt ← replaceYear s0 sy
        let edt0 ← replaceYear e0 ey
        if pdLtB edt0 sdt then
          if sdt.month > 6 ∧ edt0.month < 7 then do
            let edt ← replaceYear edt0 (sy + 1)
            pure (crossLoop edt sdt 1000)
          else if sy = ey ∧ sy = year_end then
            pure (crossLoop edt0 sdt 1000)
          else pure []
        else pure (crossLoop edt0 sdt 1000)
      | none =>
        if l.contains ',' ∨ l.contains '&' then
          let normalized := strReplace ds "&" ","
          let parts := (splitOnChar ',' normalized.toList).map
            (fun p => (pyTrim ⟨p⟩).toList)
          pure (processParts du getYear parts "" [])
        else if strContains ds "onwards" then
          let datePart := pyTrim (strReplace ds "onwards" "")
          if isMonthDay datePart.toList then do
            let dt ← du datePart
            let d ← replaceYear dt (getYear dt.month)
            pure [d]
          else pure []
        else pure []

/-- Python `sorted(list(set(dates)))`. -/
def sortedDedupPD (l : List PDate) : List PDate :=
  sortByLe pdLeB (dedupKeepFirst l)

/-- `parse_date_string`: strip, dispatch inside the outer `try` (any
escaping error yields `[]`), then return the sorted distinct dates. -/
def parse_date_string (du : String → Except String PDate) (date_str : String)
    (year_start year_end : Int) : List PDate :=
  match parse_date_string_impl du (pyTrim date_str) year_start year_end with
  | .error _ => []
  | .ok l => sortedDedupPD l

theorem flatMap_middle_nil {α β : Type} (f : α → List β) (l1 l2 : List α) (m : α)
    (hm : f m = []) :
    (l1 ++ m :: l2).flatMap f = (l1 ++ l2).flatMap f := by
  induction l1 with
  | nil => simp [hm]
  | cons a t ih => simp only [List.cons_append, List.flatMap_cons, ih]

/-- C10: a parsing error escaping any branch of `parse_date_string` is
caught and yields the empty date list instead of propagating; and a
calendar entry whose date string parses to nothing contributes nothing to
the constraint compile — inserting such a malformed entry anywhere in a
category leaves `process_weekly_constraints` unchanged. -/
theorem C10_parse_never_aborts :
    (∀ (du : String → Except String PDate) (s : String) (ys ye : Int) (e : String),
      parse_date_string_impl du (pyTrim s) ys ye = .error e →
      parse_date_string du s ys ye = []) ∧
    (∀ (parse : String → List Int) (tS tE : Int) (cfg : CalConfig)
        (m : CalEntry) (l1 l2 : List CalEntry),
      parse m.date = [] →
      process_weekly_constraints tS tE
          { cfg with national_holidays := l1 ++ m :: l2 } parse =
        process_weekly_constraints tS tE
          { cfg with national_holidays := l1 ++ l2 } parse) := by
  constructor
  · intro du s ys ye e h
    simp only [parse_date_string, h]
  · intro parse tS tE cfg m l1 l2 hm
    have hS : step3Slots parse tS tE { cfg with national_holidays := l1 ++ m :: l2 } =
        step3Slots parse tS tE { cfg with national_holidays := l1 ++ l2 } := by
      simp only [step3Slots, blockageCats]
      simp only [List.flatMap_cons, List.flatMap_nil]
      rw [flatMap_middle_nil _ l1 l2 m (by simp [hm])]
    have hD : step3Dates parse tS tE { cfg with national_holidays := l1 ++ m :: l2 } =
        step3Dates parse tS tE { cfg with national_holidays := l1 ++ l2 } := by
      simp only [step3Dates, blockageCats]
      simp only [List.flatMap_cons, List.flatMap_nil]
      rw [flatMap_middle_nil _ l1 l2 m (by simp [hm])]
    simp only [process_weekly_constraints, hS, hD]
    rfl

/-- A `dateutil` oracle that always raises. -/
def w10Du : String → Except String PDate := fun _ => .error "boom"

/-- Witness for C10: with an always-raising date parser, `"Aug 21"` (which
matches the month-day branch and so reaches the parser) yields `[]`; and
dropping a malformed holiday entry from `w8Cfg` leaves the compile
unchanged. -/
theorem C10_parse_never_aborts_witness :
    parse_date_string w10Du "Aug 21" 2024 2025 = [] ∧
    process_weekly_constraints 4 10
        { w8Cfg with national_holidays := [{ event := none, date := "garbled" }] }
        w8Parse =
      process_weekly_constraints 4 10 { w8Cfg with national_holidays := [] } w8Parse :=
  ⟨C10_parse_never_aborts.1 w10Du "Aug 21" 2024 2025 "boom" (by rfl),
   C10_parse_never_aborts.2 w8Parse 4 10 w8Cfg { event := none, date := "garbled" }
     [] [] (by decide)⟩
